import Mathlib

/-!
# Hardware-compliant LDPC decoder for IEEE 802.3an: the driver

A shallow embedding of `src/software/chain/ldpc_dec/dec_ldpc_ieee_802_3an.cpp`
(`Set_LDPC_Parameters`, `Init`, `Run`) and theorems about it.

Conventions of the embedding.

* `unsigned int` values are natural numbers; every operation that can wrap is
  written with an explicit `% 4294967296` (`incU32`, `decU32`, `subU32`,
  `mulU32`).  `int` arithmetic is on `Int` with `wrapS32`.
* A two-dimensional `Buffer` is a map from the row index to the row, a status
  array (`flipped_bits`, `mean_iterations`) a map from the slot to its value.
  The maps are total: a write at any index is kept, and the bounds that
  `Resize` sets are not part of the buffer.
* The two loops of `Run` take fuel and return `none` when it runs out; the
  theorems show that `num_iterations + 1` units are always enough.
* The members of the base class and the tables of the code, which the file
  only calls or points to, are gathered in `Env`.
* `Decoder.trace` is a ghost record of the calls and writes, in program order.
-/

namespace LDPC

/-- The scheduling selector of the configuration.  The source names `LAYERED`
and `TWO_PHASE`; every other value of the enumeration takes the `default`
branch of the switch in `Run`. -/
inductive Scheduling where
  | LAYERED : Scheduling
  | TWO_PHASE : Scheduling
  | UNSUPPORTED (code : Nat) : Scheduling
  deriving DecidableEq

/-- A two-dimensional buffer: row index to row. -/
abbrev Buffer (α : Type) := Nat → List α

/-- A status array: slot to value. -/
abbrev Status := Nat → Nat

/-- The values the configuration accessors return (`dec_algorithm()`,
`bw_extr()`, `num_iterations()`, `scheduling()`, ...). -/
structure Config where
  dec_algorithm : Nat
  num_lambda_min : Nat
  esf_factor : ℚ
  bw_fract : Nat
  num_partitions : Nat
  threshold : Int
  bw_extr : Nat
  bw_app : Nat
  num_iterations : Nat
  scheduling : Scheduling
  app_parity_check : Bool

/-- The members of the shared base class that `Set_LDPC_Parameters` assigns. -/
structure Share where
  check_node_algorithm_ : Nat
  num_lambda_min_ : Nat
  esf_factor_ : ℚ
  bw_fract_ : Nat
  num_partitions_ : Nat
  threshold_ : Int
  max_msg_extr_ : Int
  max_msg_app_ : Int
  num_variable_nodes_ : Nat
  num_check_nodes_ : Nat
  src_parallelism_ : Nat
  dst_parallelism_ : Nat
  max_check_degree_ : Nat
  is_IRA_code_ : Bool
  addr_vector_ : List Nat
  shft_vector_ : List Nat

/-- Ghost events: what `Run` called or wrote, in program order. -/
inductive Event where
  | caught (what : String) : Event
  | error_msg (text : String) : Event
  | decode_layered (iter : Nat) : Event
  | decode_two_phase (iter : Nat) : Event
  | read_app_ram (row : Nat) : Event
  | flipped_write (slot : Nat) : Event
  | mean_write (slot : Nat) : Event
  | row_copy (dst src : Nat) : Event
  deriving DecidableEq

/-- What the file uses and does not define: the address and shift tables of
`dec_ldpc_ieee_802_3an_codes.hpp`, `Reset` of a status array, `Resize` of a
buffer (which may throw a `runtime_error`), and the members of the base class
called through `this->`.  Each member function receives the base-class fields
it can read (`Share`) and its arguments, and returns what it writes.
`app_values`, `hard_bits` and `modified_systematic` are the row computations
inside `Read_APP_RAM` and `Calc_Modified_Systematic_Bits`. -/
structure Env (T : Type) where
  ieee_802_3an_p1_n2048_r084_addr : List Nat
  ieee_802_3an_p1_n2048_r084_shft : List Nat
  Reset : Status → Status
  Resize_bits : Buffer Nat → Nat → Nat → Except String (Buffer Nat)
  Resize : Buffer T → Nat → Nat → Except String (Buffer T)
  Init_APP_RAM : Share → Bool → List T → Buffer T → Buffer T
  Decode_Layered : Share → Buffer T → Buffer T → Nat → Nat × Buffer T × Buffer T
  Decode_Two_Phase : Share → Buffer T → Buffer T → Nat → Bool → Nat × Buffer T × Buffer T
  app_values : Share → Buffer T → List T
  hard_bits : Share → Buffer T → List Nat
  modified_systematic : Share → List T → List Nat → Nat

/-- The decoder object: base-class parameters, the two RAMs, the output
ports and status arrays, the two modification flags, and the ghost trace. -/
structure Decoder (T : Type) where
  share : Share
  app_ram_ : Buffer T
  msg_ram_ : Buffer T
  output_bits : Buffer Nat
  output_bits_llr_app : Buffer T
  flipped_bits : Status
  mean_iterations : Status
  decoding_successful : Bool
  num_modified_systematic_bits : Nat
  num_unsatisfied_parity_checks : Nat
  iterations_performed : Nat
  config_modified : Bool
  port_modified : Bool
  trace : List Event

/-! ## Machine arithmetic -/

/-- `x + 1` on `unsigned int`. -/
def incU32 (x : Nat) : Nat := (x + 1) % 4294967296

/-- `x - 1` on `unsigned int`. -/
def decU32 (x : Nat) : Nat := (x % 4294967296 + 4294967295) % 4294967296

/-- `a - b` on `unsigned int`. -/
def subU32 (a b : Nat) : Nat :=
  (a % 4294967296 + (4294967296 - b % 4294967296)) % 4294967296

/-- `a * b` on `unsigned int`. -/
def mulU32 (a b : Nat) : Nat := (a * b) % 4294967296

/-- Reduction of an integer to the range of a 32-bit `int`. -/
def wrapS32 (x : Int) : Int := (x + 2147483648) % 4294967296 - 2147483648

/-- `x << s` on `int`, overflow reduced modulo `2^32` (a shift by 32 or more,
undefined in C++, gives 0 for `x = 1`). -/
def shl32 (x : Int) (s : Nat) : Int := wrapS32 (x * 2 ^ s)

/-- `(1 << (bw - 1)) - 1` on `int`: the largest value of a `bw`-bit
quantization.  The shift amount `bw - 1` is a natural number (`0` for
`bw = 0`, where the C++ expression is undefined). -/
def max_msg (bw : Nat) : Int := wrapS32 (shl32 1 (bw - 1) - 1)

/-! ## `Set_LDPC_Parameters` and `Init` -/

/-- `Decoder_LDPC_IEEE_802_3an<T>::Set_LDPC_Parameters`. -/
def Set_LDPC_Parameters {T : Type} (E : Env T) (cfg : Config) (d : Decoder T) : Decoder T :=
  { d with
    share :=
      { check_node_algorithm_ := cfg.dec_algorithm
        num_lambda_min_ := cfg.num_lambda_min
        esf_factor_ := cfg.esf_factor
        bw_fract_ := cfg.bw_fract
        num_partitions_ := cfg.num_partitions
        threshold_ := cfg.threshold
        max_msg_extr_ := max_msg cfg.bw_extr
        max_msg_app_ := max_msg cfg.bw_app
        num_variable_nodes_ := 2048
        num_check_nodes_ := 384
        src_parallelism_ := 1
        dst_parallelism_ := 1
        max_check_degree_ := 32
        is_IRA_code_ := false
        addr_vector_ := E.ieee_802_3an_p1_n2048_r084_addr
        shft_vector_ := E.ieee_802_3an_p1_n2048_r084_shft } }

/-- The `try` block of `Init`: the four `Resize` calls in order.  Returns the
state reached and the `runtime_error` thrown, if any; the calls after a throw
are skipped, and the buffer whose `Resize` threw is left as it was. -/
def Init_try {T : Type} (E : Env T) (cfg : Config) (d : Decoder T) :
    Decoder T × Option String :=
  match E.Resize_bits d.output_bits cfg.num_iterations d.share.num_variable_nodes_ with
  | .error e => (d, some e)
  | .ok ob =>
    match E.Resize d.output_bits_llr_app cfg.num_iterations d.share.num_variable_nodes_ with
    | .error e => ({ d with output_bits := ob }, some e)
    | .ok ol =>
      match E.Resize d.app_ram_ d.share.dst_parallelism_
          (d.share.num_variable_nodes_ / d.share.dst_parallelism_) with
      | .error e => ({ d with output_bits := ob, output_bits_llr_app := ol }, some e)
      | .ok ar =>
        match E.Resize d.msg_ram_ d.share.dst_parallelism_
            (mulU32 d.share.num_check_nodes_ d.share.max_check_degree_
              / d.share.dst_parallelism_) with
        | .error e =>
          ({ d with output_bits := ob, output_bits_llr_app := ol, app_ram_ := ar }, some e)
        | .ok mr =>
          ({ d with output_bits := ob, output_bits_llr_app := ol, app_ram_ := ar,
                    msg_ram_ := mr }, none)

/-- The `catch(runtime_error& e)` block of `Init`: its body is commented out,
so the exception ends here (the ghost trace records it). -/
def Init_catch {T : Type} (r : Decoder T × Option String) : Decoder T :=
  match r.2 with
  | none => r.1
  | some e => { r.1 with trace := r.1.trace ++ [Event.caught e] }

/-- `Decoder_LDPC_IEEE_802_3an<T>::Init`. -/
def Init {T : Type} (E : Env T) (cfg : Config) (d : Decoder T) : Decoder T :=
  let d1 := Set_LDPC_Parameters E cfg d
  let d2 := { d1 with mean_iterations := E.Reset d1.mean_iterations }
  let d3 := { d2 with flipped_bits := E.Reset d2.flipped_bits }
  let d4 := Init_catch (Init_try E cfg d3)
  { d4 with config_modified := false, port_modified := false }

/-! ## `Run` -/

/-- Number of positions at which two rows differ. -/
def hamming (a b : List Nat) : Nat :=
  ((List.zip a b).filter (fun p => p.1 != p.2)).length

/-- Modelled from the spec: `Calc_Flipped_Bits` is a member of the base class,
absent from the source file.  Spec 4.5: the Hamming distance between the
hard-decided bit vectors at iteration `iter` and `iter - 1`. -/
def Calc_Flipped_Bits (iter : Nat) (output_bits : Buffer Nat) : Nat :=
  hamming (output_bits iter) (output_bits (decU32 iter))

/-- Modelled from the spec: `Read_APP_RAM` is a member of the base class,
absent from the source file.  Spec 3 (Iteration History) and the comment at
its call: it stores the APP values and the hard decoded bits of the APP RAM
as the snapshot of iteration `iter`, here row `iter` of the two buffers. -/
def Read_APP_RAM {T : Type} (E : Env T) (sh : Share) (app_ram : Buffer T) (iter : Nat)
    (output_bits_llr_app : Buffer T) (output_bits : Buffer Nat) : Buffer T × Buffer Nat :=
  (Function.update output_bits_llr_app iter (E.app_values sh app_ram),
   Function.update output_bits iter (E.hard_bits sh app_ram))

/-- Modelled from the spec: `Calc_Modified_Systematic_Bits` is a member of the
base class, absent from the source file.  Spec 4.5: it compares the final hard
decision, the row of the last executed iteration `iter - 1`, with the channel
input. -/
def Calc_Modified_Systematic_Bits {T : Type} (E : Env T) (sh : Share) (iter : Nat)
    (input_bits_llr : List T) (output_bits : Buffer Nat) : Nat :=
  E.modified_systematic sh input_bits_llr (output_bits (decU32 iter))

/-- The local variables of `Run` together with the decoder object. -/
structure RunState (T : Type) where
  d : Decoder T
  pchk_satisfied : Nat
  iter : Nat
  next_iter_is_last_iter : Bool
  last_iter : Bool

/-- The `switch (scheduling())` of the loop body: the satisfied-check count
and the decoder after the selected scheduler ran.  In the `default` branch
`Msg(ERROR, ...)` logs its text and returns: the branch assigns
`pchk_satisfied = 0` before it and leaves the switch with `break` after it. -/
def schedule {T : Type} (E : Env T) (cfg : Config) (d : Decoder T) (iter : Nat) :
    Nat × Decoder T :=
  match cfg.scheduling with
  | Scheduling.LAYERED =>
    let r := E.Decode_Layered d.share d.app_ram_ d.msg_ram_ iter
    (r.1, { d with app_ram_ := r.2.1, msg_ram_ := r.2.2,
                   trace := d.trace ++ [Event.decode_layered iter] })
  | Scheduling.TWO_PHASE =>
    let r := E.Decode_Two_Phase d.share d.app_ram_ d.msg_ram_ iter cfg.app_parity_check
    (r.1, { d with app_ram_ := r.2.1, msg_ram_ := r.2.2,
                   trace := d.trace ++ [Event.decode_two_phase iter] })
  | Scheduling.UNSUPPORTED _ =>
    (0, { d with trace := d.trace ++
            [Event.error_msg "Selected scheduling not supported for these codes!"] })

/-- One pass through the body of the `do ... while` loop of `Run`. -/
def loopBody {T : Type} (E : Env T) (cfg : Config) (s : RunState T) : RunState T :=
  let r := schedule E cfg s.d s.iter
  let pchk := r.1
  let d1 := r.2
  let o := Read_APP_RAM E d1.share d1.app_ram_ s.iter d1.output_bits_llr_app d1.output_bits
  let d2 := { d1 with output_bits_llr_app := o.1, output_bits := o.2,
                      trace := d1.trace ++ [Event.read_app_ram s.iter] }
  let last := s.next_iter_is_last_iter
  let conv := pchk == d2.share.num_check_nodes_
  let d3 := if conv then { d2 with decoding_successful := true } else d2
  let next := if conv then true else s.next_iter_is_last_iter
  let d4 :=
    if s.iter != 0 then
      { d3 with flipped_bits :=
                  Function.update d3.flipped_bits s.iter (Calc_Flipped_Bits s.iter d3.output_bits)
                trace := d3.trace ++ [Event.flipped_write s.iter] }
    else d3
  let iter := incU32 s.iter
  let d5 := { d4 with mean_iterations := Function.update d4.mean_iterations iter iter,
                      trace := d4.trace ++ [Event.mean_write iter] }
  { d := d5, pchk_satisfied := pchk, iter := iter, next_iter_is_last_iter := next,
    last_iter := last }

/-- The condition of the `do ... while` loop: `iter < num_iterations() && last_iter == false`. -/
def loopCond {T : Type} (cfg : Config) (s : RunState T) : Bool :=
  decide (s.iter < cfg.num_iterations) && (s.last_iter == false)

/-- The `do ... while` loop: the body runs, then the condition decides. -/
def doWhile {T : Type} (E : Env T) (cfg : Config) : Nat → RunState T → Option (RunState T)
  | 0, _ => none
  | fuel + 1, s =>
    let s1 := loopBody E cfg s
    if loopCond cfg s1 then doWhile E cfg fuel s1 else some s1

/-- The body of the backfill loop at index `i`. -/
def fillBody {T : Type} (iter i : Nat) (d : Decoder T) : Decoder T :=
  { d with
    mean_iterations := Function.update d.mean_iterations (incU32 i) iter
    output_bits_llr_app :=
      Function.update d.output_bits_llr_app i (d.output_bits_llr_app (decU32 iter))
    output_bits := Function.update d.output_bits i (d.output_bits (decU32 iter))
    trace := d.trace ++ [Event.mean_write (incU32 i), Event.row_copy i (decU32 iter)] }

/-- The loop `for (unsigned int i = iter; i < num_iterations(); i++)`. -/
def backfill {T : Type} (cfg : Config) (iter : Nat) : Nat → Nat → Decoder T → Option (Decoder T)
  | 0, _, _ => none
  | fuel + 1, i, d =>
    if i < cfg.num_iterations then backfill cfg iter fuel (incU32 i) (fillBody iter i d)
    else some d

/-- The statements of `Run` before the loop: the two writes, `Init` when the
configuration was modified, and `Init_APP_RAM`. -/
def Run_start {T : Type} (E : Env T) (cfg : Config) (input_bits_llr : List T)
    (d : Decoder T) : RunState T :=
  let d1 := { d with decoding_successful := false }
  let d2 := { d1 with num_modified_systematic_bits := 0 }
  let d3 := if d2.config_modified then Init E cfg d2 else d2
  let d4 := { d3 with
    app_ram_ := E.Init_APP_RAM d3.share d3.share.is_IRA_code_ input_bits_llr d3.app_ram_ }
  { d := d4, pchk_satisfied := 0, iter := 0, next_iter_is_last_iter := false,
    last_iter := false }

/-- The three writes of `Run` between the two loops. -/
def Run_finish {T : Type} (E : Env T) (input_bits_llr : List T) (s : RunState T) : Decoder T :=
  let d1 := { s.d with
    num_unsatisfied_parity_checks := subU32 s.d.share.num_check_nodes_ s.pchk_satisfied }
  let d2 := { d1 with iterations_performed := s.iter }
  { d2 with num_modified_systematic_bits :=
      Calc_Modified_Systematic_Bits E d2.share s.iter input_bits_llr d2.output_bits }

/-- `Decoder_LDPC_IEEE_802_3an<T>::Run`.  The result is `none` when the fuel
runs out, else what the caller receives (`Except.ok 0` for `return 0`; no
statement of `Run` lets an exception through) and the decoder afterwards.
The local `pchk_satisfied` is uninitialised in the source and assigned in
every branch of the switch before it is read; it starts as `0` here. -/
def Run {T : Type} (E : Env T) (cfg : Config) (input_bits_llr : List T) (fuel : Nat)
    (d : Decoder T) : Option (Except String Int × Decoder T) :=
  match doWhile E cfg fuel (Run_start E cfg input_bits_llr d) with
  | none => none
  | some s =>
    match backfill cfg s.iter fuel s.iter (Run_finish E input_bits_llr s) with
    | none => none
    | some d1 => some (Except.ok 0, d1)


/-! ## A small concrete instance -/

/-- Hard decision of one value: `1` for a negative value, else `0`. -/
def toyHard (x : Int) : Nat := if x < 0 then 1 else 0

/-- A concrete environment over `T = Int` with one lane.  `Resize` succeeds
and keeps the buffer, `Reset` zeroes a status array, `Init_APP_RAM` stores the
channel values in lane `0`; both schedulers report the first APP value
(clamped at `0`) as the satisfied-check count and negate every APP value. -/
def toyEnv : Env Int where
  ieee_802_3an_p1_n2048_r084_addr := []
  ieee_802_3an_p1_n2048_r084_shft := []
  Reset := fun _ _ => 0
  Resize_bits := fun b _ _ => Except.ok b
  Resize := fun b _ _ => Except.ok b
  Init_APP_RAM := fun _ _ inp _ _ => inp
  Decode_Layered := fun _ app msg _ => (((app 0).headD 0).toNat, fun l => (app l).map Int.neg, msg)
  Decode_Two_Phase := fun _ app msg _ _ =>
    (((app 0).headD 0).toNat, fun l => (app l).map Int.neg, msg)
  app_values := fun _ app => app 0
  hard_bits := fun _ app => (app 0).map toyHard
  modified_systematic := fun _ inp row => hamming (inp.map toyHard) row

/-- As `toyEnv`, but every `Resize` throws. -/
def failEnv : Env Int :=
  { toyEnv with
    Resize_bits := fun _ _ _ => Except.error "bad_alloc"
    Resize := fun _ _ _ => Except.error "bad_alloc" }

/-- A configuration with the given iteration cap and scheduling selector. -/
def toyConfig (n : Nat) (sch : Scheduling) : Config where
  dec_algorithm := 0
  num_lambda_min := 3
  esf_factor := 7 / 8
  bw_fract := 2
  num_partitions := 1
  threshold := 0
  bw_extr := 6
  bw_app := 9
  num_iterations := n
  scheduling := sch
  app_parity_check := false

/-- A decoder object before its first run: nothing allocated, configuration
marked as modified. -/
def freshDecoder : Decoder Int where
  share :=
    { check_node_algorithm_ := 0, num_lambda_min_ := 0, esf_factor_ := 0, bw_fract_ := 0,
      num_partitions_ := 0, threshold_ := 0, max_msg_extr_ := 0, max_msg_app_ := 0,
      num_variable_nodes_ := 0, num_check_nodes_ := 0, src_parallelism_ := 0,
      dst_parallelism_ := 0, max_check_degree_ := 0, is_IRA_code_ := false,
      addr_vector_ := [], shft_vector_ := [] }
  app_ram_ := fun _ => []
  msg_ram_ := fun _ => []
  output_bits := fun _ => []
  output_bits_llr_app := fun _ => []
  flipped_bits := fun _ => 0
  mean_iterations := fun _ => 0
  decoding_successful := false
  num_modified_systematic_bits := 0
  num_unsatisfied_parity_checks := 0
  iterations_performed := 0
  config_modified := true
  port_modified := true
  trace := []

/-- The decoder a run leaves behind (`freshDecoder` when the fuel runs out). -/
def afterRun (cfg : Config) (inp : List Int) (fuel : Nat) (d : Decoder Int) : Decoder Int :=
  match Run toyEnv cfg inp fuel d with
  | some r => r.2
  | none => freshDecoder

/-! ## Quantities the theorems speak about -/

/-- The state after `i` passes through the loop body, started from the state
`Run` enters the loop with.  The loop of `Run` executes exactly these passes
until its condition fails. -/
def iterState {T : Type} (E : Env T) (cfg : Config) (inp : List T) (d : Decoder T)
    (i : Nat) : RunState T :=
  (loopBody E cfg)^[i] (Run_start E cfg inp d)

/-- The satisfied-check count of the `i`-th iteration, counting from 1: the
value of `pchk_satisfied` after `i` passes through the loop body. -/
def pchkAt {T : Type} (E : Env T) (cfg : Config) (inp : List T) (d : Decoder T)
    (i : Nat) : Nat :=
  (iterState E cfg inp d i).pchk_satisfied

/-- The value of `num_check_nodes_` during the run (384 once `Init` has run). -/
def checkNodes {T : Type} (E : Env T) (cfg : Config) (inp : List T) (d : Decoder T) : Nat :=
  (Run_start E cfg inp d).d.share.num_check_nodes_

/-- The hard-decision snapshot that the iteration with index `j` (counting
from 0) stores: the hard bits of the APP RAM after `j + 1` passes. -/
def snapBits {T : Type} (E : Env T) (cfg : Config) (inp : List T) (d : Decoder T)
    (j : Nat) : List Nat :=
  E.hard_bits (iterState E cfg inp d (j + 1)).d.share (iterState E cfg inp d (j + 1)).d.app_ram_

/-- The APP snapshot that the iteration with index `j` (counting from 0) stores. -/
def snapLlr {T : Type} (E : Env T) (cfg : Config) (inp : List T) (d : Decoder T)
    (j : Nat) : List T :=
  E.app_values (iterState E cfg inp d (j + 1)).d.share (iterState E cfg inp d (j + 1)).d.app_ram_

/-- The backfill loop as a fold over the indices `k, ..., num_iterations - 1`. -/
def fillAll {T : Type} (cfg : Config) (k : Nat) (d : Decoder T) : Decoder T :=
  (List.range' k (cfg.num_iterations - k)).foldl (fun acc j => fillBody k j acc) d

/-- The loop of `Run` stops after exactly `m + 1` passes: its condition holds
after each of the first `m` passes and fails after pass `m + 1`. -/
def stopsAt {T : Type} (E : Env T) (cfg : Config) (inp : List T) (d : Decoder T)
    (m : Nat) : Prop :=
  (∀ j, j < m → loopCond cfg (iterState E cfg inp d (j + 1)) = true) ∧
    loopCond cfg (iterState E cfg inp d (m + 1)) = false

/-- The decoder `Run` leaves when its loop stops after `k` passes: the three
writes and the backfill applied to the state after `k` passes. -/
def finalDecoder {T : Type} (E : Env T) (cfg : Config) (inp : List T) (d : Decoder T)
    (k : Nat) : Decoder T :=
  fillAll cfg k (Run_finish E inp (iterState E cfg inp d k))

/-- Two loop states agree on everything the loop body reads to compute the
next counts, flags and snapshots: base-class parameters, the two RAMs and the
local variables. -/
def sameCore {T : Type} (s1 s2 : RunState T) : Prop :=
  s1.d.share = s2.d.share ∧ s1.d.app_ram_ = s2.d.app_ram_ ∧ s1.d.msg_ram_ = s2.d.msg_ram_ ∧
    s1.iter = s2.iter ∧ s1.pchk_satisfied = s2.pchk_satisfied ∧
    s1.next_iter_is_last_iter = s2.next_iter_is_last_iter ∧ s1.last_iter = s2.last_iter

/-- As `toyEnv`, but the layered scheduler reads the message RAM: it reports
384 satisfied checks while lane `0` of the message RAM is empty and 0
afterwards, and it stores a message in lane `0`. -/
def msgEnv : Env Int :=
  { toyEnv with
    Decode_Layered := fun _ app msg _ =>
      (if (msg 0).isEmpty then 384 else 0, app, fun _ => [1]) }

/-- The ghost event of the scheduling switch in the pass entered with counter `i`. -/
def switchEvent (cfg : Config) (i : Nat) : Event :=
  match cfg.scheduling with
  | Scheduling.LAYERED => Event.decode_layered i
  | Scheduling.TWO_PHASE => Event.decode_two_phase i
  | Scheduling.UNSUPPORTED _ =>
    Event.error_msg "Selected scheduling not supported for these codes!"

/-- The ghost events of one pass through the loop body entered with counter `i`. -/
def passEvents (cfg : Config) (i : Nat) : List Event :=
  [switchEvent cfg i, Event.read_app_ram i] ++
    (if i != 0 then [Event.flipped_write i] else []) ++ [Event.mean_write (incU32 i)]

/-- The ghost events of one step of the backfill loop at index `j`, after `k` passes. -/
def fillEvents (k j : Nat) : List Event :=
  [Event.mean_write (incU32 j), Event.row_copy j (decU32 k)]

/-- The ghost events of a run whose decode loop makes `k` passes: the passes
with counters `0, ..., k - 1`, then the backfill steps `k, ..., num_iterations - 1`. -/
def runEvents (cfg : Config) (k : Nat) : List Event :=
  (List.range k).flatMap (passEvents cfg) ++
    (List.range' k (cfg.num_iterations - k)).flatMap (fillEvents k)

/-- Whether an event is an execution of the scheduling switch. -/
def isSwitch : Event → Bool
  | Event.decode_layered _ => true
  | Event.decode_two_phase _ => true
  | Event.error_msg _ => true
  | _ => false

/-- Whether an event is a call of one of the two schedulers. -/
def isDecode : Event → Bool
  | Event.decode_layered _ => true
  | Event.decode_two_phase _ => true
  | _ => false

/-- Whether an event is a row copy of the backfill loop. -/
def isRowCopy : Event → Bool
  | Event.row_copy _ _ => true
  | _ => false

/-- Whether the index of a write is inside buffers and status arrays sized for
`n` iterations: output rows `0..n-1`, `mean_iterations` slots `1..n`,
`flipped_bits` slots `1..n-1`; a row copy reads an earlier row. -/
def indexSafe (n : Nat) : Event → Bool
  | Event.read_app_ram row => decide (row < n)
  | Event.flipped_write slot => decide (1 ≤ slot) && decide (slot + 1 ≤ n)
  | Event.mean_write slot => decide (1 ≤ slot) && decide (slot ≤ n)
  | Event.row_copy dst src => decide (dst < n) && decide (src < dst)
  | _ => true

/-! ## The Convergence Monitor of the spec -/

/-- The states of the Convergence Monitor (spec 4.4). -/
inductive MonitorState where
  | RUNNING : MonitorState
  | PENDING_EXTRA_ITERATION : MonitorState
  | DONE : MonitorState
  deriving DecidableEq

/-- The Convergence Monitor of spec 4.4: its state, its iteration counter and
the success flag. -/
structure Monitor where
  state : MonitorState
  counter : Nat
  success : Bool
  deriving DecidableEq

/-- Spec 4.4: "Initial state: `RUNNING`, iteration counter 0." -/
def specMonitorInit : Monitor :=
  { state := MonitorState.RUNNING, counter := 0, success := false }

/-- Spec 4.4, the transition on a completed scheduler call that returned
`count`, written from the spec's words and not from the loop of `Run`.
In `RUNNING`, a count equal to `num_check_nodes` sets the success flag and
moves to `PENDING_EXTRA_ITERATION`; in `PENDING_EXTRA_ITERATION` the completed
iteration moves to `DONE`; when the counter has reached `num_iterations` the
monitor moves to `DONE` regardless; `DONE` is terminal. -/
def specMonitorStep (nc n : Nat) (m : Monitor) (count : Nat) : Monitor :=
  match m.state with
  | MonitorState.DONE => m
  | MonitorState.PENDING_EXTRA_ITERATION =>
    { state := MonitorState.DONE, counter := m.counter + 1, success := m.success }
  | MonitorState.RUNNING =>
    { state :=
        if n ≤ m.counter + 1 then MonitorState.DONE
        else if count == nc then MonitorState.PENDING_EXTRA_ITERATION
        else MonitorState.RUNNING
      counter := m.counter + 1
      success := m.success || (count == nc) }

/-- The monitor after the scheduler calls `1, ..., i`, call `j` returning `counts j`. -/
def specMonitorRun (nc n : Nat) (counts : Nat → Nat) : Nat → Monitor
  | 0 => specMonitorInit
  | i + 1 => specMonitorStep nc n (specMonitorRun nc n counts i) (counts (i + 1))

/-- The monitor state that a state of the loop of `Run` stands for: `DONE`
when the loop condition fails, else `PENDING_EXTRA_ITERATION` when
`next_iter_is_last_iter` is set, else `RUNNING`; the counter is `iter` and the
success flag is `decoding_successful`. -/
def liftState {T : Type} (cfg : Config) (s : RunState T) : Monitor :=
  { state :=
      if loopCond cfg s then
        (if s.next_iter_is_last_iter then MonitorState.PENDING_EXTRA_ITERATION
         else MonitorState.RUNNING)
      else MonitorState.DONE
    counter := s.iter
    success := s.d.decoding_successful }

/-- The configuration `toyConfig 3 LAYERED` with an extrinsic width of 33 bits. -/
def wideConfig : Config :=
  { toyConfig 3 Scheduling.LAYERED with bw_extr := 33 }

/-! ## Machine arithmetic: basic facts -/

theorem incU32_of_lt {x : Nat} (h : x + 1 < 4294967296) : incU32 x = x + 1 := by
  unfold incU32; omega

theorem decU32_of_pos {x : Nat} (h0 : 0 < x) (h : x < 4294967296) : decU32 x = x - 1 := by
  unfold decU32; omega

theorem subU32_of_le {a b : Nat} (hab : b ≤ a) (ha : a < 4294967296) : subU32 a b = a - b := by
  unfold subU32; omega

/-! ## One pass through the loop body -/

section body
variable {T : Type} (E : Env T) (cfg : Config)

theorem schedule_share (d : Decoder T) (i : Nat) : (schedule E cfg d i).2.share = d.share := by
  unfold schedule; split <;> rfl

theorem schedule_output_bits (d : Decoder T) (i : Nat) :
    (schedule E cfg d i).2.output_bits = d.output_bits := by
  unfold schedule; split <;> rfl

theorem schedule_output_llr (d : Decoder T) (i : Nat) :
    (schedule E cfg d i).2.output_bits_llr_app = d.output_bits_llr_app := by
  unfold schedule; split <;> rfl

theorem schedule_flipped (d : Decoder T) (i : Nat) :
    (schedule E cfg d i).2.flipped_bits = d.flipped_bits := by
  unfold schedule; split <;> rfl

theorem schedule_mean (d : Decoder T) (i : Nat) :
    (schedule E cfg d i).2.mean_iterations = d.mean_iterations := by
  unfold schedule; split <;> rfl

theorem schedule_success (d : Decoder T) (i : Nat) :
    (schedule E cfg d i).2.decoding_successful = d.decoding_successful := by
  unfold schedule; split <;> rfl

theorem loopBody_iter (s : RunState T) : (loopBody E cfg s).iter = incU32 s.iter := rfl

theorem loopBody_last (s : RunState T) :
    (loopBody E cfg s).last_iter = s.next_iter_is_last_iter := rfl

theorem loopBody_pchk (s : RunState T) :
    (loopBody E cfg s).pchk_satisfied = (schedule E cfg s.d s.iter).1 := rfl

theorem loopBody_share (s : RunState T) : (loopBody E cfg s).d.share = s.d.share := by
  unfold loopBody
  dsimp only
  split_ifs <;> exact schedule_share E cfg s.d s.iter

theorem loopBody_app (s : RunState T) :
    (loopBody E cfg s).d.app_ram_ = (schedule E cfg s.d s.iter).2.app_ram_ := by
  unfold loopBody
  dsimp only
  split_ifs <;> rfl

theorem loopBody_msg (s : RunState T) :
    (loopBody E cfg s).d.msg_ram_ = (schedule E cfg s.d s.iter).2.msg_ram_ := by
  unfold loopBody
  dsimp only
  split_ifs <;> rfl

theorem loopBody_next (s : RunState T) :
    (loopBody E cfg s).next_iter_is_last_iter =
      (s.next_iter_is_last_iter || (loopBody E cfg s).pchk_satisfied == s.d.share.num_check_nodes_) := by
  unfold loopBody
  dsimp only
  rw [schedule_share]
  cases h : ((schedule E cfg s.d s.iter).1 == s.d.share.num_check_nodes_) <;> simp

theorem loopBody_success (s : RunState T) :
    (loopBody E cfg s).d.decoding_successful =
      (s.d.decoding_successful ||
        (loopBody E cfg s).pchk_satisfied == s.d.share.num_check_nodes_) := by
  unfold loopBody
  dsimp only
  rw [schedule_share]
  cases h : ((schedule E cfg s.d s.iter).1 == s.d.share.num_check_nodes_) <;>
    split_ifs <;> simp_all [schedule_success]

theorem loopBody_output_bits (s : RunState T) :
    (loopBody E cfg s).d.output_bits =
      Function.update s.d.output_bits s.iter
        (E.hard_bits (loopBody E cfg s).d.share (loopBody E cfg s).d.app_ram_) := by
  rw [loopBody_share, loopBody_app]
  unfold loopBody Read_APP_RAM
  dsimp only
  split_ifs <;> simp [schedule_share, schedule_output_bits]

theorem loopBody_output_llr (s : RunState T) :
    (loopBody E cfg s).d.output_bits_llr_app =
      Function.update s.d.output_bits_llr_app s.iter
        (E.app_values (loopBody E cfg s).d.share (loopBody E cfg s).d.app_ram_) := by
  rw [loopBody_share, loopBody_app]
  unfold loopBody Read_APP_RAM
  dsimp only
  split_ifs <;> simp [schedule_share, schedule_output_llr]

theorem loopBody_mean (s : RunState T) :
    (loopBody E cfg s).d.mean_iterations =
      Function.update s.d.mean_iterations (incU32 s.iter) (incU32 s.iter) := by
  unfold loopBody
  dsimp only
  split_ifs <;> simp [schedule_mean]

theorem loopBody_flipped (s : RunState T) :
    (loopBody E cfg s).d.flipped_bits =
      if s.iter = 0 then s.d.flipped_bits
      else Function.update s.d.flipped_bits s.iter
        (Calc_Flipped_Bits s.iter (loopBody E cfg s).d.output_bits) := by
  rw [loopBody_output_bits, loopBody_share, loopBody_app]
  unfold loopBody Read_APP_RAM
  dsimp only
  split_ifs <;> simp_all [schedule_share, schedule_output_bits, schedule_flipped]

end body

/-! ## The state after `i` passes -/

section passes
variable {T : Type} (E : Env T) (cfg : Config) (inp : List T) (d : Decoder T)

theorem iterState_zero : iterState E cfg inp d 0 = Run_start E cfg inp d := rfl

theorem iterState_succ (i : Nat) :
    iterState E cfg inp d (i + 1) = loopBody E cfg (iterState E cfg inp d i) := by
  unfold iterState
  exact Function.iterate_succ_apply' _ _ _

theorem Init_success (d0 : Decoder T) :
    (Init E cfg d0).decoding_successful = d0.decoding_successful := by
  unfold Init Init_catch Init_try Set_LDPC_Parameters
  dsimp only
  repeat' split
  all_goals rfl

theorem Run_start_success : (Run_start E cfg inp d).d.decoding_successful = false := by
  unfold Run_start
  dsimp only
  split_ifs
  · exact Init_success E cfg _
  · rfl

theorem iterState_iter (i : Nat) (hi : i < 4294967296) : (iterState E cfg inp d i).iter = i := by
  induction i with
  | zero => rfl
  | succ i ih =>
    rw [iterState_succ, loopBody_iter, ih (by omega)]
    exact incU32_of_lt hi

theorem iterState_share (i : Nat) :
    (iterState E cfg inp d i).d.share = (Run_start E cfg inp d).d.share := by
  induction i with
  | zero => rfl
  | succ i ih => rw [iterState_succ, loopBody_share, ih]

theorem iterState_last (i : Nat) :
    (iterState E cfg inp d (i + 1)).last_iter = (iterState E cfg inp d i).next_iter_is_last_iter := by
  rw [iterState_succ, loopBody_last]

theorem iterState_next_iff (i : Nat) :
    (iterState E cfg inp d i).next_iter_is_last_iter = true ↔
      ∃ j, 1 ≤ j ∧ j ≤ i ∧ pchkAt E cfg inp d j = checkNodes E cfg inp d := by
  induction i with
  | zero =>
    constructor
    · intro h; exact absurd h (by simp [iterState_zero, Run_start])
    · rintro ⟨j, h1, h2, _⟩; omega
  | succ i ih =>
    rw [iterState_succ, loopBody_next, Bool.or_eq_true, ih, ← iterState_succ, iterState_share,
      beq_iff_eq]
    constructor
    · rintro (⟨j, h1, h2, h3⟩ | h)
      · exact ⟨j, h1, by omega, h3⟩
      · exact ⟨i + 1, by omega, le_refl _, h⟩
    · rintro ⟨j, h1, h2, h3⟩
      rcases Nat.lt_or_ge j (i + 1) with hlt | hge
      · exact Or.inl ⟨j, h1, by omega, h3⟩
      · have : j = i + 1 := by omega
        subst this
        exact Or.inr h3

theorem iterState_success (i : Nat) :
    (iterState E cfg inp d i).d.decoding_successful =
      (iterState E cfg inp d i).next_iter_is_last_iter := by
  induction i with
  | zero => rw [iterState_zero, Run_start_success]; rfl
  | succ i ih => rw [iterState_succ, loopBody_success, loopBody_next, ih]

theorem iterState_output_bits (i j : Nat) (hi : i ≤ 4294967296) (hj : j < i) :
    (iterState E cfg inp d i).d.output_bits j = snapBits E cfg inp d j := by
  induction i with
  | zero => omega
  | succ i ih =>
    rw [iterState_succ, loopBody_output_bits, iterState_iter E cfg inp d i (by omega),
      ← iterState_succ]
    rcases Nat.lt_or_ge j i with hlt | hge
    · rw [Function.update_noteq (by omega), ih (by omega) hlt]
    · have : j = i := by omega
      subst this
      rw [Function.update_same]; rfl

theorem iterState_output_llr (i j : Nat) (hi : i ≤ 4294967296) (hj : j < i) :
    (iterState E cfg inp d i).d.output_bits_llr_app j = snapLlr E cfg inp d j := by
  induction i with
  | zero => omega
  | succ i ih =>
    rw [iterState_succ, loopBody_output_llr, iterState_iter E cfg inp d i (by omega),
      ← iterState_succ]
    rcases Nat.lt_or_ge j i with hlt | hge
    · rw [Function.update_noteq (by omega), ih (by omega) hlt]
    · have : j = i := by omega
      subst this
      rw [Function.update_same]; rfl

theorem iterState_mean (i j : Nat) (hi : i < 4294967296) (h1 : 1 ≤ j) (hj : j ≤ i) :
    (iterState E cfg inp d i).d.mean_iterations j = j := by
  induction i with
  | zero => omega
  | succ i ih =>
    rw [iterState_succ, loopBody_mean, iterState_iter E cfg inp d i (by omega),
      incU32_of_lt hi]
    rcases Nat.lt_or_ge j (i + 1) with hlt | hge
    · rw [Function.update_noteq (by omega), ih (by omega) (by omega)]
    · have : j = i + 1 := by omega
      subst this
      rw [Function.update_same]

theorem iterState_flipped (i j : Nat) (hi : i ≤ 4294967296) (h1 : 1 ≤ j) (hj : j < i) :
    (iterState E cfg inp d i).d.flipped_bits j =
      hamming (snapBits E cfg inp d j) (snapBits E cfg inp d (j - 1)) := by
  induction i with
  | zero => omega
  | succ i ih =>
    rw [iterState_succ, loopBody_flipped, iterState_iter E cfg inp d i (by omega),
      ← iterState_succ]
    rcases Nat.lt_or_ge j i with hlt | hge
    · have hi0 : i ≠ 0 := by omega
      rw [if_neg hi0, Function.update_noteq (by omega), ih (by omega) hlt]
    · have : j = i := by omega
      subst this
      have hj0 : j ≠ 0 := by omega
      rw [if_neg hj0, Function.update_same]
      unfold Calc_Flipped_Bits
      rw [decU32_of_pos (by omega) (by omega),
        iterState_output_bits E cfg inp d (j + 1) j hi (by omega),
        iterState_output_bits E cfg inp d (j + 1) (j - 1) hi (by omega)]

theorem iterState_flipped_frame (i j : Nat) (hi : i ≤ 4294967296) (hj : j = 0 ∨ i ≤ j) :
    (iterState E cfg inp d i).d.flipped_bits j = (Run_start E cfg inp d).d.flipped_bits j := by
  induction i with
  | zero => rfl
  | succ i ih =>
    rw [iterState_succ, loopBody_flipped, iterState_iter E cfg inp d i (by omega)]
    split_ifs with h0
    · exact ih (by omega) (by omega)
    · rw [Function.update_noteq (by omega)]
      exact ih (by omega) (by omega)

end passes

/-! ## The two loops -/

section loops
variable {T : Type} (E : Env T) (cfg : Config) (inp : List T) (d : Decoder T)

theorem doWhile_stop (m : Nat) : ∀ (fuel : Nat) (s : RunState T),
    (∀ j, j < m → loopCond cfg ((loopBody E cfg)^[j + 1] s) = true) →
    loopCond cfg ((loopBody E cfg)^[m + 1] s) = false → m < fuel →
    doWhile E cfg fuel s = some ((loopBody E cfg)^[m + 1] s) := by
  induction m with
  | zero =>
    intro fuel s _ h2 hf
    obtain ⟨f, rfl⟩ : ∃ f, fuel = f + 1 := ⟨fuel - 1, by omega⟩
    have h2b : loopCond cfg (loopBody E cfg s) = false := h2
    simp [doWhile, h2b]
  | succ m ih =>
    intro fuel s h1 h2 hf
    obtain ⟨f, rfl⟩ : ∃ f, fuel = f + 1 := ⟨fuel - 1, by omega⟩
    have h0 : loopCond cfg (loopBody E cfg s) = true := h1 0 (by omega)
    have hrec := ih f (loopBody E cfg s) (fun j hj => h1 (j + 1) (by omega)) h2 (by omega)
    simp only [doWhile, h0, if_true]
    exact hrec

theorem doWhile_of_stopsAt (m fuel : Nat) (hs : stopsAt E cfg inp d m) (hf : m < fuel) :
    doWhile E cfg fuel (Run_start E cfg inp d) = some (iterState E cfg inp d (m + 1)) :=
  doWhile_stop E cfg m fuel (Run_start E cfg inp d) hs.1 hs.2 hf

theorem loopCond_iterState (j : Nat) (hj : j + 1 < 4294967296) :
    loopCond cfg (iterState E cfg inp d (j + 1)) = true ↔
      j + 1 < cfg.num_iterations ∧
        ¬ ∃ l, 1 ≤ l ∧ l ≤ j ∧ pchkAt E cfg inp d l = checkNodes E cfg inp d := by
  unfold loopCond
  rw [Bool.and_eq_true, decide_eq_true_eq, iterState_iter E cfg inp d (j + 1) hj, beq_iff_eq,
    iterState_last, ← iterState_next_iff, Bool.not_eq_true]

theorem stopsAt_unique (m m1 : Nat) (h : stopsAt E cfg inp d m) (h1 : stopsAt E cfg inp d m1) :
    m = m1 := by
  rcases Nat.lt_trichotomy m m1 with hlt | heq | hgt
  · have := h1.1 m hlt
    rw [h.2] at this
    exact absurd this (by simp)
  · exact heq
  · have := h.1 m1 hgt
    rw [h1.2] at this
    exact absurd this (by simp)

theorem stopsAt_exists (hn : cfg.num_iterations < 4294967296) :
    ∃ m, m < max 1 cfg.num_iterations ∧ stopsAt E cfg inp d m := by
  classical
  have hex : ∃ j, loopCond cfg (iterState E cfg inp d (j + 1)) = false := by
    refine ⟨max 1 cfg.num_iterations - 1, ?_⟩
    have hlt : max 1 cfg.num_iterations - 1 + 1 < 4294967296 := by omega
    by_contra hc
    rw [Bool.not_eq_false, loopCond_iterState E cfg inp d _ hlt] at hc
    omega
  refine ⟨Nat.find hex, ?_, ?_, Nat.find_spec hex⟩
  · have hle : Nat.find hex ≤ max 1 cfg.num_iterations - 1 := by
      apply Nat.find_min'
      have hlt : max 1 cfg.num_iterations - 1 + 1 < 4294967296 := by omega
      by_contra hc
      rw [Bool.not_eq_false, loopCond_iterState E cfg inp d _ hlt] at hc
      omega
    omega
  · intro j hj
    have := Nat.find_min hex hj
    simpa using this

theorem backfill_eq (k : Nat) (hn : cfg.num_iterations < 4294967296) :
    ∀ (fuel i : Nat) (d0 : Decoder T), cfg.num_iterations - i < fuel →
      backfill cfg k fuel i d0 =
        some ((List.range' i (cfg.num_iterations - i)).foldl (fun acc j => fillBody k j acc) d0) := by
  intro fuel
  induction fuel with
  | zero => intro i d0 h; omega
  | succ f ih =>
    intro i d0 h
    unfold backfill
    split_ifs with hi
    · rw [incU32_of_lt (by omega), ih (i + 1) _ (by omega)]
      have hsplit : cfg.num_iterations - i = (cfg.num_iterations - (i + 1)) + 1 := by omega
      rw [hsplit, List.range'_succ, List.foldl_cons]
    · have h0 : cfg.num_iterations - i = 0 := by omega
      rw [h0]
      rfl

theorem Run_of_stopsAt (m fuel : Nat) (hn : cfg.num_iterations < 4294967296)
    (hfuel : cfg.num_iterations < fuel) (hm : m < max 1 cfg.num_iterations)
    (hs : stopsAt E cfg inp d m) :
    Run E cfg inp fuel d = some (Except.ok 0, finalDecoder E cfg inp d (m + 1)) := by
  have hit : (iterState E cfg inp d (m + 1)).iter = m + 1 :=
    iterState_iter E cfg inp d (m + 1) (by omega)
  unfold Run
  rw [doWhile_of_stopsAt E cfg inp d m fuel hs (by omega)]
  dsimp only
  rw [hit, backfill_eq cfg (m + 1) hn fuel (m + 1) _ (by omega)]
  rfl

end loops

/-! ## The backfill as a fold -/

section fold
variable {T : Type}

theorem fold_frame (k : Nat) (L : List Nat) : ∀ d0 : Decoder T,
    let r := L.foldl (fun acc j => fillBody k j acc) d0
    r.share = d0.share ∧ r.decoding_successful = d0.decoding_successful ∧
      r.iterations_performed = d0.iterations_performed ∧
      r.num_unsatisfied_parity_checks = d0.num_unsatisfied_parity_checks ∧
      r.num_modified_systematic_bits = d0.num_modified_systematic_bits ∧
      r.flipped_bits = d0.flipped_bits := by
  induction L with
  | nil => intro d0; exact ⟨rfl, rfl, rfl, rfl, rfl, rfl⟩
  | cons a L ih => intro d0; exact ih (fillBody k a d0)

theorem fold_bits_other (k : Nat) (L : List Nat) (j : Nat) (hj : j ∉ L) : ∀ d0 : Decoder T,
    (L.foldl (fun acc i => fillBody k i acc) d0).output_bits j = d0.output_bits j ∧
      (L.foldl (fun acc i => fillBody k i acc) d0).output_bits_llr_app j =
        d0.output_bits_llr_app j := by
  induction L with
  | nil => intro d0; exact ⟨rfl, rfl⟩
  | cons a L ih =>
    intro d0
    have hja : j ≠ a := fun h => hj (by simp [h])
    have hjL : j ∉ L := fun h => hj (by simp [h])
    have := ih hjL (fillBody k a d0)
    rw [List.foldl_cons, this.1, this.2]
    simp [fillBody, Function.update_noteq hja]

theorem fold_bits_mem (k : Nat) (L : List Nat) (hk : decU32 k ∉ L) (j : Nat) (hj : j ∈ L) :
    ∀ d0 : Decoder T,
    (L.foldl (fun acc i => fillBody k i acc) d0).output_bits j = d0.output_bits (decU32 k) ∧
      (L.foldl (fun acc i => fillBody k i acc) d0).output_bits_llr_app j =
        d0.output_bits_llr_app (decU32 k) := by
  induction L with
  | nil => intro d0; exact absurd hj (by simp)
  | cons a L ih =>
    intro d0
    have hka : decU32 k ≠ a := fun h => hk (by simp [h])
    have hkL : decU32 k ∉ L := fun h => hk (by simp [h])
    rw [List.foldl_cons]
    by_cases hjL : j ∈ L
    · have := ih hkL hjL (fillBody k a d0)
      rw [this.1, this.2]
      simp [fillBody, Function.update_noteq hka]
    · have hja : j = a := by
        rcases List.mem_cons.mp hj with h | h
        · exact h
        · exact absurd h hjL
      have := fold_bits_other k L j hjL (fillBody k a d0)
      rw [this.1, this.2, hja]
      simp [fillBody]

theorem fold_mean_other (k : Nat) (L : List Nat) (j : Nat) (hj : ∀ i, i ∈ L → incU32 i ≠ j) :
    ∀ d0 : Decoder T,
    (L.foldl (fun acc i => fillBody k i acc) d0).mean_iterations j = d0.mean_iterations j := by
  induction L with
  | nil => intro d0; rfl
  | cons a L ih =>
    intro d0
    have hja : j ≠ incU32 a := fun h => hj a (by simp) h.symm
    rw [List.foldl_cons, ih (fun i hi => hj i (by simp [hi])) (fillBody k a d0)]
    simp [fillBody, Function.update_noteq hja]

theorem fold_mean_mem (k : Nat) (L : List Nat) (j : Nat) (hj : ∃ i, i ∈ L ∧ incU32 i = j) :
    ∀ d0 : Decoder T,
    (L.foldl (fun acc i => fillBody k i acc) d0).mean_iterations j = k := by
  induction L with
  | nil => intro d0; obtain ⟨i, hi, _⟩ := hj; exact absurd hi (by simp)
  | cons a L ih =>
    intro d0
    rw [List.foldl_cons]
    by_cases hL : ∃ i, i ∈ L ∧ incU32 i = j
    · exact ih hL (fillBody k a d0)
    · have hno : ∀ i, i ∈ L → incU32 i ≠ j := fun i hi h => hL ⟨i, hi, h⟩
      obtain ⟨i, hi, hij⟩ := hj
      have hia : i = a := by
        rcases List.mem_cons.mp hi with h | h
        · exact h
        · exact absurd hij (hno i h)
      rw [fold_mean_other k L j hno (fillBody k a d0), ← hij, hia]
      simp [fillBody]

end fold

/-! ## The decoder after the run -/

section final
variable {T : Type} (E : Env T) (cfg : Config) (inp : List T) (d : Decoder T)

theorem finalDecoder_iterations (k : Nat) (hk : k < 4294967296) :
    (finalDecoder E cfg inp d k).iterations_performed = k := by
  unfold finalDecoder fillAll
  rw [(fold_frame k _ _).2.2.1]
  exact iterState_iter E cfg inp d k hk

theorem finalDecoder_success (k : Nat) :
    (finalDecoder E cfg inp d k).decoding_successful =
      (iterState E cfg inp d k).d.decoding_successful := by
  unfold finalDecoder fillAll
  rw [(fold_frame k _ _).2.1]
  rfl

theorem finalDecoder_unsat (k : Nat) :
    (finalDecoder E cfg inp d k).num_unsatisfied_parity_checks =
      subU32 (checkNodes E cfg inp d) (pchkAt E cfg inp d k) := by
  unfold finalDecoder fillAll
  rw [(fold_frame k _ _).2.2.2.1]
  unfold Run_finish checkNodes pchkAt
  dsimp only
  rw [iterState_share]

theorem finalDecoder_flipped (k : Nat) :
    (finalDecoder E cfg inp d k).flipped_bits = (iterState E cfg inp d k).d.flipped_bits := by
  unfold finalDecoder fillAll
  rw [(fold_frame k _ _).2.2.2.2.2]
  rfl

theorem finalDecoder_rows_executed (k j : Nat) (hk : k ≤ 4294967296) (hj : j < k) :
    (finalDecoder E cfg inp d k).output_bits j = snapBits E cfg inp d j ∧
      (finalDecoder E cfg inp d k).output_bits_llr_app j = snapLlr E cfg inp d j := by
  unfold finalDecoder fillAll
  have hnot : j ∉ List.range' k (cfg.num_iterations - k) := by
    rw [List.mem_range'_1]; omega
  have := fold_bits_other k _ j hnot (Run_finish E inp (iterState E cfg inp d k))
  rw [this.1, this.2]
  exact ⟨iterState_output_bits E cfg inp d k j hk hj, iterState_output_llr E cfg inp d k j hk hj⟩

theorem finalDecoder_rows_filled (k j : Nat) (hk : k < 4294967296) (hk0 : 0 < k) (hkj : k ≤ j)
    (hj : j < cfg.num_iterations) :
    (finalDecoder E cfg inp d k).output_bits j = snapBits E cfg inp d (k - 1) ∧
      (finalDecoder E cfg inp d k).output_bits_llr_app j = snapLlr E cfg inp d (k - 1) := by
  unfold finalDecoder fillAll
  have hdec : decU32 k = k - 1 := decU32_of_pos hk0 hk
  have hnot : decU32 k ∉ List.range' k (cfg.num_iterations - k) := by
    rw [List.mem_range'_1]; omega
  have hmem : j ∈ List.range' k (cfg.num_iterations - k) := by
    rw [List.mem_range'_1]; omega
  have := fold_bits_mem k _ hnot j hmem (Run_finish E inp (iterState E cfg inp d k))
  rw [this.1, this.2, hdec]
  exact ⟨iterState_output_bits E cfg inp d k (k - 1) (by omega) (by omega),
    iterState_output_llr E cfg inp d k (k - 1) (by omega) (by omega)⟩

theorem finalDecoder_mean_executed (k j : Nat) (hn : cfg.num_iterations < 4294967296)
    (hk : k < 4294967296) (h1 : 1 ≤ j) (hj : j ≤ k) :
    (finalDecoder E cfg inp d k).mean_iterations j = j := by
  unfold finalDecoder fillAll
  have hno : ∀ i, i ∈ List.range' k (cfg.num_iterations - k) → incU32 i ≠ j := by
    intro i hi
    rw [List.mem_range'_1] at hi
    rw [incU32_of_lt (by omega)]
    omega
  rw [fold_mean_other k _ j hno]
  exact iterState_mean E cfg inp d k j hk h1 hj

theorem finalDecoder_mean_filled (k j : Nat) (hn : cfg.num_iterations < 4294967296)
    (hkj : k ≤ j) (hj : j < cfg.num_iterations) :
    (finalDecoder E cfg inp d k).mean_iterations (j + 1) = k := by
  unfold finalDecoder fillAll
  apply fold_mean_mem
  refine ⟨j, ?_, incU32_of_lt (by omega)⟩
  rw [List.mem_range'_1]; omega

theorem finalDecoder_modified (k : Nat) (hk : k < 4294967296) (hk0 : 0 < k) :
    (finalDecoder E cfg inp d k).num_modified_systematic_bits =
      E.modified_systematic (Run_start E cfg inp d).d.share inp (snapBits E cfg inp d (k - 1)) := by
  unfold finalDecoder fillAll
  rw [(fold_frame k _ _).2.2.2.2.1]
  unfold Run_finish Calc_Modified_Systematic_Bits
  dsimp only
  rw [iterState_share, iterState_iter E cfg inp d k hk, decU32_of_pos hk0 hk,
    iterState_output_bits E cfg inp d k (k - 1) (by omega) (by omega)]

end final

/-! ## Convergence delay and iteration cap -/

/-- C1 (convergence delay law).  If the `k`-th iteration, counting from 1, is
the first whose satisfied-check count equals `num_check_nodes_`, and
`k < num_iterations`, then `Run` returns having written
`iterations_performed = k + 1` and `decoding_successful = true`. -/
theorem convergence_delay {T : Type} (E : Env T) (cfg : Config) (inp : List T) (d : Decoder T)
    (fuel k : Nat) (hn : cfg.num_iterations < 4294967296) (hfuel : cfg.num_iterations < fuel)
    (hk1 : 1 ≤ k) (hkn : k < cfg.num_iterations)
    (hconv : pchkAt E cfg inp d k = checkNodes E cfg inp d)
    (hfirst : ∀ j, 1 ≤ j → j < k → pchkAt E cfg inp d j ≠ checkNodes E cfg inp d) :
    ∃ r, Run E cfg inp fuel d = some r ∧ r.2.iterations_performed = k + 1 ∧
      r.2.decoding_successful = true := by
  have hs : stopsAt E cfg inp d k := by
    constructor
    · intro j hj
      rw [loopCond_iterState E cfg inp d j (by omega)]
      refine ⟨by omega, ?_⟩
      rintro ⟨l, hl1, hl2, hl3⟩
      exact hfirst l hl1 (by omega) hl3
    · rw [← Bool.not_eq_true, loopCond_iterState E cfg inp d k (by omega)]
      intro h
      exact h.2 ⟨k, hk1, le_refl k, hconv⟩
  refine ⟨_, Run_of_stopsAt E cfg inp d k fuel hn hfuel (by omega) hs, ?_, ?_⟩
  · exact finalDecoder_iterations E cfg inp d (k + 1) (by omega)
  · show (finalDecoder E cfg inp d (k + 1)).decoding_successful = true
    rw [finalDecoder_success, iterState_success, iterState_next_iff]
    exact ⟨k, hk1, by omega, hconv⟩

/-- Witness of C1: `num_iterations = 10`, the first scheduler call reports 384
satisfied checks, and the run ends with `iterations_performed = 2`. -/
theorem convergence_delay_witness :
    pchkAt toyEnv (toyConfig 10 Scheduling.LAYERED) [384, -2] freshDecoder 1 = 384 ∧
      ∃ r, Run toyEnv (toyConfig 10 Scheduling.LAYERED) [384, -2] 11 freshDecoder = some r ∧
        r.2.iterations_performed = 1 + 1 ∧ r.2.decoding_successful = true :=
  ⟨by decide,
   convergence_delay toyEnv (toyConfig 10 Scheduling.LAYERED) [384, -2] freshDecoder 11 1
     (by decide) (by decide) (by decide) (by decide) (by decide)
     (fun j h1 h2 => absurd h2 (by omega))⟩

/-- C2 as stated fails at `num_iterations = 0`: the body of the `do ... while`
loop runs once, no iteration converges, and `Run` writes
`iterations_performed = 1`, not `num_iterations`. -/
theorem cap_law_counterexample :
    pchkAt toyEnv (toyConfig 0 Scheduling.LAYERED) [1, -2] freshDecoder 1 ≠
        checkNodes toyEnv (toyConfig 0 Scheduling.LAYERED) [1, -2] freshDecoder ∧
      ∃ r, Run toyEnv (toyConfig 0 Scheduling.LAYERED) [1, -2] 1 freshDecoder = some r ∧
        r.2.iterations_performed = 1 ∧
        r.2.iterations_performed ≠ (toyConfig 0 Scheduling.LAYERED).num_iterations :=
  ⟨by decide, _, rfl, by decide, by decide⟩

/-- C2 amended (cap law).  If no executed iteration returns a satisfied-check
count equal to `num_check_nodes_`, `Run` returns having written
`iterations_performed = max 1 num_iterations`, which is `num_iterations`
whenever `num_iterations ≥ 1`, and `decoding_successful = false`. -/
theorem cap_law {T : Type} (E : Env T) (cfg : Config) (inp : List T) (d : Decoder T)
    (fuel : Nat) (hn : cfg.num_iterations < 4294967296) (hfuel : cfg.num_iterations < fuel)
    (hnever : ∀ j, 1 ≤ j → j ≤ max 1 cfg.num_iterations →
      pchkAt E cfg inp d j ≠ checkNodes E cfg inp d) :
    ∃ r, Run E cfg inp fuel d = some r ∧
      r.2.iterations_performed = max 1 cfg.num_iterations ∧
      (1 ≤ cfg.num_iterations → r.2.iterations_performed = cfg.num_iterations) ∧
      r.2.decoding_successful = false := by
  have hs : stopsAt E cfg inp d (max 1 cfg.num_iterations - 1) := by
    constructor
    · intro j hj
      rw [loopCond_iterState E cfg inp d j (by omega)]
      refine ⟨by omega, ?_⟩
      rintro ⟨l, hl1, hl2, hl3⟩
      exact hnever l hl1 (by omega) hl3
    · rw [← Bool.not_eq_true, loopCond_iterState E cfg inp d _ (by omega)]
      intro h
      omega
  have hk : max 1 cfg.num_iterations - 1 + 1 = max 1 cfg.num_iterations := by omega
  have hrun := Run_of_stopsAt E cfg inp d _ fuel hn hfuel (by omega) hs
  rw [hk] at hrun
  have hit : (finalDecoder E cfg inp d (max 1 cfg.num_iterations)).iterations_performed =
      max 1 cfg.num_iterations := finalDecoder_iterations E cfg inp d _ (by omega)
  refine ⟨_, hrun, hit, ?_, ?_⟩
  · intro h1
    show (finalDecoder E cfg inp d (max 1 cfg.num_iterations)).iterations_performed = _
    rw [hit]; omega
  · show (finalDecoder E cfg inp d (max 1 cfg.num_iterations)).decoding_successful = false
    rw [finalDecoder_success, iterState_success, ← Bool.not_eq_true, iterState_next_iff]
    rintro ⟨l, hl1, hl2, hl3⟩
    exact hnever l hl1 hl2 hl3

/-- Witness of the amended C2: three iterations, none of which converges. -/
theorem cap_law_witness :
    ∃ r, Run toyEnv (toyConfig 3 Scheduling.LAYERED) [1, -2] 4 freshDecoder = some r ∧
      r.2.iterations_performed = max 1 (toyConfig 3 Scheduling.LAYERED).num_iterations ∧
      (1 ≤ (toyConfig 3 Scheduling.LAYERED).num_iterations →
        r.2.iterations_performed = (toyConfig 3 Scheduling.LAYERED).num_iterations) ∧
      r.2.decoding_successful = false :=
  cap_law toyEnv (toyConfig 3 Scheduling.LAYERED) [1, -2] freshDecoder 4 (by decide) (by decide)
    (by
      intro j h1 h3
      have h3b : j ≤ 3 := h3
      interval_cases j <;> decide)

/-! ## Output rows, flipped bits, unsatisfied checks, iteration trace -/

/-- C3 (replication law).  `Run` returns, and with `k = iterations_performed`
every row `j` with `k ≤ j < num_iterations` of the hard-decision and of the APP
output equals row `k - 1`, while every row `i < k` holds the snapshot that
iteration `i` stored. -/
theorem replication_law {T : Type} (E : Env T) (cfg : Config) (inp : List T) (d : Decoder T)
    (fuel : Nat) (hn : cfg.num_iterations < 4294967296) (hfuel : cfg.num_iterations < fuel) :
    ∃ r, Run E cfg inp fuel d = some r ∧
      (∀ j, r.2.iterations_performed ≤ j → j < cfg.num_iterations →
        r.2.output_bits j = r.2.output_bits (r.2.iterations_performed - 1) ∧
        r.2.output_bits_llr_app j = r.2.output_bits_llr_app (r.2.iterations_performed - 1)) ∧
      (∀ i, i < r.2.iterations_performed →
        r.2.output_bits i = snapBits E cfg inp d i ∧
        r.2.output_bits_llr_app i = snapLlr E cfg inp d i) := by
  obtain ⟨m, hm, hs⟩ := stopsAt_exists E cfg inp d hn
  have hit : (finalDecoder E cfg inp d (m + 1)).iterations_performed = m + 1 :=
    finalDecoder_iterations E cfg inp d (m + 1) (by omega)
  refine ⟨_, Run_of_stopsAt E cfg inp d m fuel hn hfuel hm hs, ?_, ?_⟩
  · intro j hkj hj
    show (finalDecoder E cfg inp d (m + 1)).output_bits j = _ ∧
      (finalDecoder E cfg inp d (m + 1)).output_bits_llr_app j = _
    have hkj1 : m + 1 ≤ j := by
      have : (finalDecoder E cfg inp d (m + 1)).iterations_performed ≤ j := hkj
      omega
    have hfill := finalDecoder_rows_filled E cfg inp d (m + 1) j (by omega) (by omega) hkj1 hj
    have hexe := finalDecoder_rows_executed E cfg inp d (m + 1) m (by omega) (by omega)
    show _ = (finalDecoder E cfg inp d (m + 1)).output_bits
        ((finalDecoder E cfg inp d (m + 1)).iterations_performed - 1) ∧
      _ = (finalDecoder E cfg inp d (m + 1)).output_bits_llr_app
        ((finalDecoder E cfg inp d (m + 1)).iterations_performed - 1)
    rw [hit, Nat.add_sub_cancel, hexe.1, hexe.2]
    exact hfill
  · intro i hi
    have hi1 : i < m + 1 := by
      have : i < (finalDecoder E cfg inp d (m + 1)).iterations_performed := hi
      omega
    exact finalDecoder_rows_executed E cfg inp d (m + 1) i (by omega) hi1

/-- Witness of C3: three output rows, convergence at the first iteration. -/
theorem replication_law_witness :
    ∃ r, Run toyEnv (toyConfig 3 Scheduling.LAYERED) [384, -2] 4 freshDecoder = some r ∧
      (∀ j, r.2.iterations_performed ≤ j → j < (toyConfig 3 Scheduling.LAYERED).num_iterations →
        r.2.output_bits j = r.2.output_bits (r.2.iterations_performed - 1) ∧
        r.2.output_bits_llr_app j = r.2.output_bits_llr_app (r.2.iterations_performed - 1)) ∧
      (∀ i, i < r.2.iterations_performed →
        r.2.output_bits i =
          snapBits toyEnv (toyConfig 3 Scheduling.LAYERED) [384, -2] freshDecoder i ∧
        r.2.output_bits_llr_app i =
          snapLlr toyEnv (toyConfig 3 Scheduling.LAYERED) [384, -2] freshDecoder i) :=
  replication_law toyEnv (toyConfig 3 Scheduling.LAYERED) [384, -2] freshDecoder 4
    (by decide) (by decide)

/-- C4 as stated fails on a backfilled slot.  A first run of three iterations
leaves `flipped_bits[2] = 2`; a second run on the same decoder converges at
once, stops after two iterations and backfills row 2 with row 1, so the
Hamming distance between rows 2 and 1 is 0 while `flipped_bits[2]` is still 2. -/
theorem flipped_bits_counterexample :
    ∃ r, Run toyEnv (toyConfig 3 Scheduling.LAYERED) [384, -2] 4
        (afterRun (toyConfig 3 Scheduling.LAYERED) [1, -2] 4 freshDecoder) = some r ∧
      r.2.iterations_performed = 2 ∧
      hamming (r.2.output_bits 2) (r.2.output_bits 1) = 0 ∧
      r.2.flipped_bits 2 = 2 :=
  ⟨_, rfl, by decide, by decide, by decide⟩

/-- C4 amended (flipped-bit correctness on the executed iterations).  `Run`
returns, and for every `i` with `1 ≤ i < iterations_performed` the slot
`flipped_bits[i]` is the Hamming distance between the hard-decision rows `i`
and `i - 1`. -/
theorem flipped_bits_executed {T : Type} (E : Env T) (cfg : Config) (inp : List T)
    (d : Decoder T) (fuel : Nat) (hn : cfg.num_iterations < 4294967296)
    (hfuel : cfg.num_iterations < fuel) :
    ∃ r, Run E cfg inp fuel d = some r ∧
      ∀ i, 1 ≤ i → i < r.2.iterations_performed →
        r.2.flipped_bits i = hamming (r.2.output_bits i) (r.2.output_bits (i - 1)) := by
  obtain ⟨m, hm, hs⟩ := stopsAt_exists E cfg inp d hn
  have hit : (finalDecoder E cfg inp d (m + 1)).iterations_performed = m + 1 :=
    finalDecoder_iterations E cfg inp d (m + 1) (by omega)
  refine ⟨_, Run_of_stopsAt E cfg inp d m fuel hn hfuel hm hs, ?_⟩
  intro i h1 hi
  have hi1 : i < m + 1 := by
    have : i < (finalDecoder E cfg inp d (m + 1)).iterations_performed := hi
    omega
  show (finalDecoder E cfg inp d (m + 1)).flipped_bits i =
    hamming ((finalDecoder E cfg inp d (m + 1)).output_bits i)
      ((finalDecoder E cfg inp d (m + 1)).output_bits (i - 1))
  rw [finalDecoder_flipped,
    (finalDecoder_rows_executed E cfg inp d (m + 1) i (by omega) hi1).1,
    (finalDecoder_rows_executed E cfg inp d (m + 1) (i - 1) (by omega) (by omega)).1]
  exact iterState_flipped E cfg inp d (m + 1) i (by omega) h1 hi1

/-- Witness of the amended C4: three executed iterations. -/
theorem flipped_bits_executed_witness :
    ∃ r, Run toyEnv (toyConfig 3 Scheduling.LAYERED) [1, -2] 4 freshDecoder = some r ∧
      ∀ i, 1 ≤ i → i < r.2.iterations_performed →
        r.2.flipped_bits i = hamming (r.2.output_bits i) (r.2.output_bits (i - 1)) :=
  flipped_bits_executed toyEnv (toyConfig 3 Scheduling.LAYERED) [1, -2] freshDecoder 4
    (by decide) (by decide)

/-- C5 (unsatisfied parity checks).  `Run` returns having written
`num_check_nodes_ - c` in `unsigned int` arithmetic, where `c` is the count of
the last executed iteration; when `c ≤ num_check_nodes_` the subtraction does
not wrap and the result is at most `num_check_nodes_`. -/
theorem unsatisfied_checks {T : Type} (E : Env T) (cfg : Config) (inp : List T)
    (d : Decoder T) (fuel : Nat) (hn : cfg.num_iterations < 4294967296)
    (hfuel : cfg.num_iterations < fuel) :
    ∃ r, Run E cfg inp fuel d = some r ∧
      r.2.num_unsatisfied_parity_checks =
        subU32 (checkNodes E cfg inp d) (pchkAt E cfg inp d r.2.iterations_performed) ∧
      (checkNodes E cfg inp d < 4294967296 →
        pchkAt E cfg inp d r.2.iterations_performed ≤ checkNodes E cfg inp d →
        r.2.num_unsatisfied_parity_checks =
            checkNodes E cfg inp d - pchkAt E cfg inp d r.2.iterations_performed ∧
          r.2.num_unsatisfied_parity_checks ≤ checkNodes E cfg inp d) := by
  obtain ⟨m, hm, hs⟩ := stopsAt_exists E cfg inp d hn
  have hit : (finalDecoder E cfg inp d (m + 1)).iterations_performed = m + 1 :=
    finalDecoder_iterations E cfg inp d (m + 1) (by omega)
  have hun := finalDecoder_unsat E cfg inp d (m + 1)
  refine ⟨_, Run_of_stopsAt E cfg inp d m fuel hn hfuel hm hs, ?_, ?_⟩
  · show (finalDecoder E cfg inp d (m + 1)).num_unsatisfied_parity_checks =
      subU32 _ (pchkAt E cfg inp d (finalDecoder E cfg inp d (m + 1)).iterations_performed)
    rw [hit, hun]
  · show _ → pchkAt E cfg inp d (finalDecoder E cfg inp d (m + 1)).iterations_performed ≤ _ →
      (finalDecoder E cfg inp d (m + 1)).num_unsatisfied_parity_checks =
        _ - pchkAt E cfg inp d (finalDecoder E cfg inp d (m + 1)).iterations_performed ∧
      (finalDecoder E cfg inp d (m + 1)).num_unsatisfied_parity_checks ≤ _
    rw [hit, hun]
    intro hlt hle
    rw [subU32_of_le hle hlt]
    exact ⟨rfl, Nat.sub_le _ _⟩

/-- Witness of C5: convergence at the first iteration, ten rows. -/
theorem unsatisfied_checks_witness :
    ∃ r, Run toyEnv (toyConfig 10 Scheduling.LAYERED) [384, -2] 11 freshDecoder = some r ∧
      r.2.num_unsatisfied_parity_checks =
        subU32 (checkNodes toyEnv (toyConfig 10 Scheduling.LAYERED) [384, -2] freshDecoder)
          (pchkAt toyEnv (toyConfig 10 Scheduling.LAYERED) [384, -2] freshDecoder
            r.2.iterations_performed) ∧
      (checkNodes toyEnv (toyConfig 10 Scheduling.LAYERED) [384, -2] freshDecoder < 4294967296 →
        pchkAt toyEnv (toyConfig 10 Scheduling.LAYERED) [384, -2] freshDecoder
            r.2.iterations_performed ≤
          checkNodes toyEnv (toyConfig 10 Scheduling.LAYERED) [384, -2] freshDecoder →
        r.2.num_unsatisfied_parity_checks =
            checkNodes toyEnv (toyConfig 10 Scheduling.LAYERED) [384, -2] freshDecoder -
              pchkAt toyEnv (toyConfig 10 Scheduling.LAYERED) [384, -2] freshDecoder
                r.2.iterations_performed ∧
          r.2.num_unsatisfied_parity_checks ≤
            checkNodes toyEnv (toyConfig 10 Scheduling.LAYERED) [384, -2] freshDecoder) :=
  unsatisfied_checks toyEnv (toyConfig 10 Scheduling.LAYERED) [384, -2] freshDecoder 11
    (by decide) (by decide)

/-- C6 (trace of `mean_iterations`).  `Run` returns, and with
`k = iterations_performed`: `mean_iterations[i] = i` for `1 ≤ i ≤ k`,
`mean_iterations[j + 1] = k` for `k ≤ j < num_iterations`, hence
`mean_iterations[i] = min i k` for every `i` in `1..num_iterations`. -/
theorem mean_iterations_trace {T : Type} (E : Env T) (cfg : Config) (inp : List T)
    (d : Decoder T) (fuel : Nat) (hn : cfg.num_iterations < 4294967296)
    (hfuel : cfg.num_iterations < fuel) :
    ∃ r, Run E cfg inp fuel d = some r ∧
      (∀ i, 1 ≤ i → i ≤ r.2.iterations_performed → r.2.mean_iterations i = i) ∧
      (∀ j, r.2.iterations_performed ≤ j → j < cfg.num_iterations →
        r.2.mean_iterations (j + 1) = r.2.iterations_performed) ∧
      (∀ i, 1 ≤ i → i ≤ cfg.num_iterations →
        r.2.mean_iterations i = min i r.2.iterations_performed) := by
  obtain ⟨m, hm, hs⟩ := stopsAt_exists E cfg inp d hn
  have hit : (finalDecoder E cfg inp d (m + 1)).iterations_performed = m + 1 :=
    finalDecoder_iterations E cfg inp d (m + 1) (by omega)
  have hexe : ∀ i, 1 ≤ i → i ≤ m + 1 →
      (finalDecoder E cfg inp d (m + 1)).mean_iterations i = i :=
    fun i h1 hi => finalDecoder_mean_executed E cfg inp d (m + 1) i hn (by omega) h1 hi
  have hfill : ∀ j, m + 1 ≤ j → j < cfg.num_iterations →
      (finalDecoder E cfg inp d (m + 1)).mean_iterations (j + 1) = m + 1 :=
    fun j hkj hj => finalDecoder_mean_filled E cfg inp d (m + 1) j hn hkj hj
  refine ⟨_, Run_of_stopsAt E cfg inp d m fuel hn hfuel hm hs, ?_, ?_, ?_⟩
  · intro i h1 hi
    exact hexe i h1 (by
      have : i ≤ (finalDecoder E cfg inp d (m + 1)).iterations_performed := hi
      omega)
  · intro j hkj hj
    show (finalDecoder E cfg inp d (m + 1)).mean_iterations (j + 1) =
      (finalDecoder E cfg inp d (m + 1)).iterations_performed
    rw [hit]
    exact hfill j (by
      have : (finalDecoder E cfg inp d (m + 1)).iterations_performed ≤ j := hkj
      omega) hj
  · intro i h1 hi
    show (finalDecoder E cfg inp d (m + 1)).mean_iterations i =
      min i (finalDecoder E cfg inp d (m + 1)).iterations_performed
    rw [hit]
    rcases Nat.lt_or_ge (m + 1) i with hgt | hle
    · obtain ⟨j, rfl⟩ : ∃ j, i = j + 1 := ⟨i - 1, by omega⟩
      rw [hfill j (by omega) (by omega), Nat.min_eq_right (by omega)]
    · rw [hexe i h1 hle, Nat.min_eq_left hle]

/-- Witness of C6: convergence at the first iteration, ten slots. -/
theorem mean_iterations_trace_witness :
    ∃ r, Run toyEnv (toyConfig 10 Scheduling.LAYERED) [384, -2] 11 freshDecoder = some r ∧
      (∀ i, 1 ≤ i → i ≤ r.2.iterations_performed → r.2.mean_iterations i = i) ∧
      (∀ j, r.2.iterations_performed ≤ j →
        j < (toyConfig 10 Scheduling.LAYERED).num_iterations →
        r.2.mean_iterations (j + 1) = r.2.iterations_performed) ∧
      (∀ i, 1 ≤ i → i ≤ (toyConfig 10 Scheduling.LAYERED).num_iterations →
        r.2.mean_iterations i = min i r.2.iterations_performed) :=
  mean_iterations_trace toyEnv (toyConfig 10 Scheduling.LAYERED) [384, -2] freshDecoder 11
    (by decide) (by decide)

/-! ## Quantization bounds -/

/-- C7 (saturation correctness).  For every bit width `b` in `[2, 16]`,
`Set_LDPC_Parameters` sets `max_msg_extr_ = 2^(b-1) - 1` when `bw_extr() = b`
and `max_msg_app_ = 2^(b-1) - 1` when `bw_app() = b`; neither the shift nor the
subtraction overflows the 32-bit `int` (the reductions leave both unchanged). -/
theorem saturation_bounds {T : Type} (E : Env T) (cfg : Config) (d : Decoder T) (b : Nat)
    (h2 : 2 ≤ b) (h16 : b ≤ 16) :
    (cfg.bw_extr = b →
      (Set_LDPC_Parameters E cfg d).share.max_msg_extr_ = 2 ^ (b - 1) - 1) ∧
    (cfg.bw_app = b →
      (Set_LDPC_Parameters E cfg d).share.max_msg_app_ = 2 ^ (b - 1) - 1) ∧
    shl32 1 (b - 1) = 1 * 2 ^ (b - 1) ∧
    wrapS32 (1 * 2 ^ (b - 1) - 1) = 1 * 2 ^ (b - 1) - 1 := by
  have hmax : max_msg b = 2 ^ (b - 1) - 1 := by
    interval_cases b <;> decide
  refine ⟨?_, ?_, ?_, ?_⟩
  · intro h
    show max_msg cfg.bw_extr = _
    rw [h, hmax]
  · intro h
    show max_msg cfg.bw_app = _
    rw [h, hmax]
  · interval_cases b <;> decide
  · interval_cases b <;> decide

/-- Witness of C7: the widths 6 (extrinsic) and 9 (APP) of `toyConfig`. -/
theorem saturation_bounds_witness :
    (Set_LDPC_Parameters toyEnv (toyConfig 3 Scheduling.LAYERED) freshDecoder).share.max_msg_extr_
        = 31 ∧
      (Set_LDPC_Parameters toyEnv (toyConfig 3 Scheduling.LAYERED) freshDecoder).share.max_msg_app_
        = 255 :=
  ⟨(saturation_bounds toyEnv (toyConfig 3 Scheduling.LAYERED) freshDecoder 6
      (by decide) (by decide)).1 rfl,
   (saturation_bounds toyEnv (toyConfig 3 Scheduling.LAYERED) freshDecoder 9
      (by decide) (by decide)).2.1 rfl⟩

/-! ## The ghost trace only grows -/

section trace
variable {T : Type} (E : Env T) (cfg : Config) (inp : List T) (d : Decoder T)

theorem schedule_trace_mono (d0 : Decoder T) (i : Nat) (e : Event) (h : e ∈ d0.trace) :
    e ∈ (schedule E cfg d0 i).2.trace := by
  unfold schedule
  split <;> simp [h]

theorem schedule_unsupported (d0 : Decoder T) (i code : Nat)
    (hsch : cfg.scheduling = Scheduling.UNSUPPORTED code) :
    (schedule E cfg d0 i).1 = 0 ∧
      Event.error_msg "Selected scheduling not supported for these codes!" ∈
        (schedule E cfg d0 i).2.trace := by
  unfold schedule
  rw [hsch]
  simp

theorem loopBody_trace_mono (s : RunState T) (e : Event)
    (h : e ∈ (schedule E cfg s.d s.iter).2.trace) : e ∈ (loopBody E cfg s).d.trace := by
  unfold loopBody
  dsimp only
  split_ifs <;> simp [h]

theorem iterState_trace_mono (i : Nat) (e : Event)
    (h : e ∈ (iterState E cfg inp d 1).d.trace) : e ∈ (iterState E cfg inp d (i + 1)).d.trace := by
  induction i with
  | zero => exact h
  | succ i ih =>
    rw [iterState_succ]
    exact loopBody_trace_mono E cfg _ e (schedule_trace_mono E cfg _ _ e ih)

theorem fold_trace_mono (k : Nat) (L : List Nat) (e : Event) : ∀ d0 : Decoder T,
    e ∈ d0.trace → e ∈ (L.foldl (fun acc j => fillBody k j acc) d0).trace := by
  induction L with
  | nil => intro d0 h; exact h
  | cons a L ih =>
    intro d0 h
    rw [List.foldl_cons]
    apply ih
    simp [fillBody, h]

theorem finalDecoder_trace_mono (k : Nat) (e : Event)
    (h : e ∈ (iterState E cfg inp d k).d.trace) : e ∈ (finalDecoder E cfg inp d k).trace := by
  unfold finalDecoder fillAll
  exact fold_trace_mono k _ e _ h

end trace

/-! ## Error paths -/

/-- C8 as stated fails: with the unsupported selector `UNSUPPORTED 7` the run
returns 0, exactly as a run with a supported selector does, and it writes
decode output: three iterations, row 0 of the hard decisions, 384 unsatisfied
checks. -/
theorem unsupported_scheduling_counterexample :
    ∃ r, Run toyEnv (toyConfig 3 (Scheduling.UNSUPPORTED 7)) [384, -2] 4 freshDecoder = some r ∧
      r.1 = Except.ok 0 ∧
      (Run toyEnv (toyConfig 3 Scheduling.LAYERED) [384, -2] 4 freshDecoder).map Prod.fst =
        some r.1 ∧
      pchkAt toyEnv (toyConfig 3 (Scheduling.UNSUPPORTED 7)) [384, -2] freshDecoder 1 = 0 ∧
      r.2.iterations_performed = 3 ∧ r.2.num_unsatisfied_parity_checks = 384 ∧
      r.2.output_bits 0 = [0, 1] ∧ r.2.output_bits_llr_app 0 = [384, -2] :=
  ⟨_, rfl, rfl, rfl, by decide, by decide, by decide, by decide, by decide⟩

/-- C8 amended.  For every scheduling selector other than `LAYERED` and
`TWO_PHASE`, `Run` records the error message, uses a satisfied-check count of
0 in every iteration, still writes its decode output (at least one iteration,
whose snapshot is in row 0) and returns 0, the value it returns on success. -/
theorem unsupported_scheduling {T : Type} (E : Env T) (cfg : Config) (inp : List T)
    (d : Decoder T) (fuel code : Nat) (hsch : cfg.scheduling = Scheduling.UNSUPPORTED code)
    (hn : cfg.num_iterations < 4294967296) (hfuel : cfg.num_iterations < fuel) :
    ∃ r, Run E cfg inp fuel d = some r ∧ r.1 = Except.ok 0 ∧
      (∀ i, 1 ≤ i → pchkAt E cfg inp d i = 0) ∧
      Event.error_msg "Selected scheduling not supported for these codes!" ∈ r.2.trace ∧
      1 ≤ r.2.iterations_performed ∧
      r.2.output_bits 0 = snapBits E cfg inp d 0 ∧
      r.2.output_bits_llr_app 0 = snapLlr E cfg inp d 0 := by
  obtain ⟨m, hm, hs⟩ := stopsAt_exists E cfg inp d hn
  have hit : (finalDecoder E cfg inp d (m + 1)).iterations_performed = m + 1 :=
    finalDecoder_iterations E cfg inp d (m + 1) (by omega)
  have hrow := finalDecoder_rows_executed E cfg inp d (m + 1) 0 (by omega) (by omega)
  refine ⟨_, Run_of_stopsAt E cfg inp d m fuel hn hfuel hm hs, rfl, ?_, ?_, ?_, hrow.1, hrow.2⟩
  · intro i h1
    obtain ⟨j, rfl⟩ : ∃ j, i = j + 1 := ⟨i - 1, by omega⟩
    unfold pchkAt
    rw [iterState_succ, loopBody_pchk]
    exact (schedule_unsupported E cfg _ _ code hsch).1
  · apply finalDecoder_trace_mono
    apply iterState_trace_mono
    rw [iterState_succ]
    exact loopBody_trace_mono E cfg _ _ (schedule_unsupported E cfg _ _ code hsch).2
  · show 1 ≤ (finalDecoder E cfg inp d (m + 1)).iterations_performed
    omega

/-- Witness of the amended C8: the selector `UNSUPPORTED 7`, three rows. -/
theorem unsupported_scheduling_witness :
    ∃ r, Run toyEnv (toyConfig 3 (Scheduling.UNSUPPORTED 7)) [384, -2] 4 freshDecoder = some r ∧
      r.1 = Except.ok 0 ∧
      (∀ i, 1 ≤ i →
        pchkAt toyEnv (toyConfig 3 (Scheduling.UNSUPPORTED 7)) [384, -2] freshDecoder i = 0) ∧
      Event.error_msg "Selected scheduling not supported for these codes!" ∈ r.2.trace ∧
      1 ≤ r.2.iterations_performed ∧
      r.2.output_bits 0 =
        snapBits toyEnv (toyConfig 3 (Scheduling.UNSUPPORTED 7)) [384, -2] freshDecoder 0 ∧
      r.2.output_bits_llr_app 0 =
        snapLlr toyEnv (toyConfig 3 (Scheduling.UNSUPPORTED 7)) [384, -2] freshDecoder 0 :=
  unsupported_scheduling toyEnv (toyConfig 3 (Scheduling.UNSUPPORTED 7)) [384, -2] freshDecoder
    4 7 rfl (by decide) (by decide)

/-- C9 at a failing input: every `Resize` in `Init` throws, `Init` catches and
discards the exception, and `Run` goes on to decode (the layered scheduler is
called, three iterations are performed) and returns 0. -/
theorem allocation_failure_swallowed :
    (Init_try failEnv (toyConfig 3 Scheduling.LAYERED)
        (Set_LDPC_Parameters failEnv (toyConfig 3 Scheduling.LAYERED) freshDecoder)).2 =
        some "bad_alloc" ∧
      ∃ r, Run failEnv (toyConfig 3 Scheduling.LAYERED) [1, -2] 4 freshDecoder = some r ∧
        r.1 = Except.ok 0 ∧ r.2.trace.head? = some (Event.caught "bad_alloc") ∧
        Event.decode_layered 0 ∈ r.2.trace ∧ r.2.iterations_performed = 3 :=
  ⟨rfl, _, rfl, rfl, by decide, by decide, by decide⟩

/-! ## Dependence of a run on the state it starts from -/

section core
variable {T : Type} (E : Env T) (cfg : Config) (inp : List T)

theorem schedule_core (d1 d2 : Decoder T) (i : Nat) (hs : d1.share = d2.share)
    (ha : d1.app_ram_ = d2.app_ram_) (hm : d1.msg_ram_ = d2.msg_ram_) :
    (schedule E cfg d1 i).1 = (schedule E cfg d2 i).1 ∧
      (schedule E cfg d1 i).2.app_ram_ = (schedule E cfg d2 i).2.app_ram_ ∧
      (schedule E cfg d1 i).2.msg_ram_ = (schedule E cfg d2 i).2.msg_ram_ := by
  unfold schedule
  split <;> simp [hs, ha, hm]

theorem loopBody_core (s1 s2 : RunState T) (h : sameCore s1 s2) :
    sameCore (loopBody E cfg s1) (loopBody E cfg s2) := by
  obtain ⟨hs, ha, hm, hi, _, hnx, _⟩ := h
  have hsc := schedule_core E cfg s1.d s2.d s1.iter hs ha hm
  rw [hi] at hsc
  have hp : (loopBody E cfg s1).pchk_satisfied = (loopBody E cfg s2).pchk_satisfied := by
    rw [loopBody_pchk, loopBody_pchk, hi]
    exact hsc.1
  refine ⟨?_, ?_, ?_, ?_, hp, ?_, ?_⟩
  · rw [loopBody_share, loopBody_share, hs]
  · rw [loopBody_app, loopBody_app, hi]
    exact hsc.2.1
  · rw [loopBody_msg, loopBody_msg, hi]
    exact hsc.2.2
  · rw [loopBody_iter, loopBody_iter, hi]
  · rw [loopBody_next, loopBody_next, hp, hnx, hs]
  · rw [loopBody_last, loopBody_last, hnx]

theorem iterState_core (d1 d2 : Decoder T)
    (h : sameCore (Run_start E cfg inp d1) (Run_start E cfg inp d2)) (i : Nat) :
    sameCore (iterState E cfg inp d1 i) (iterState E cfg inp d2 i) := by
  induction i with
  | zero => exact h
  | succ i ih =>
    rw [iterState_succ, iterState_succ]
    exact loopBody_core E cfg _ _ ih

theorem snapBits_core (d1 d2 : Decoder T)
    (h : sameCore (Run_start E cfg inp d1) (Run_start E cfg inp d2)) (j : Nat) :
    snapBits E cfg inp d1 j = snapBits E cfg inp d2 j ∧
      snapLlr E cfg inp d1 j = snapLlr E cfg inp d2 j := by
  have hc := iterState_core E cfg inp d1 d2 h (j + 1)
  unfold snapBits snapLlr
  rw [hc.1, hc.2.1]
  exact ⟨rfl, rfl⟩

theorem stopsAt_core (d1 d2 : Decoder T)
    (h : sameCore (Run_start E cfg inp d1) (Run_start E cfg inp d2)) (m : Nat)
    (hs : stopsAt E cfg inp d1 m) : stopsAt E cfg inp d2 m := by
  have hcond : ∀ i, loopCond cfg (iterState E cfg inp d2 i) =
      loopCond cfg (iterState E cfg inp d1 i) := by
    intro i
    have hc := iterState_core E cfg inp d1 d2 h i
    unfold loopCond
    rw [hc.2.2.2.1, hc.2.2.2.2.2.2]
  constructor
  · intro j hj
    rw [hcond]
    exact hs.1 j hj
  · rw [hcond]
    exact hs.2

end core

/-! ## Repeated runs -/

/-- C10 as stated fails.  First part (`toyEnv`): two decoders of the same
configuration, each left behind by one earlier run, decode the same input;
both stop after two iterations, and slot 2 of the `flipped_bits` trace, which
neither run writes, still holds what the earlier run left (2 and 0).  Second
part (`msgEnv`, a scheduler that reads the message RAM): the same input decoded
twice in a row on one decoder converges the first time and not the second,
because `Run` hands the message RAM of the first run to the scheduler. -/
theorem determinism_counterexample :
    (∃ r1 r2,
      Run toyEnv (toyConfig 3 Scheduling.LAYERED) [384, -2] 4
          (afterRun (toyConfig 3 Scheduling.LAYERED) [1, -2] 4 freshDecoder) = some r1 ∧
        Run toyEnv (toyConfig 3 Scheduling.LAYERED) [384, -2] 4
          (afterRun (toyConfig 3 Scheduling.LAYERED) [384, -2] 4 freshDecoder) = some r2 ∧
        r1.2.iterations_performed = 2 ∧ r2.2.iterations_performed = 2 ∧
        r1.2.flipped_bits 2 = 2 ∧ r2.2.flipped_bits 2 = 0) ∧
    (∃ r1 r2,
      Run msgEnv (toyConfig 3 Scheduling.LAYERED) [1, -2] 4 freshDecoder = some r1 ∧
        Run msgEnv (toyConfig 3 Scheduling.LAYERED) [1, -2] 4 r1.2 = some r2 ∧
        r1.2.decoding_successful = true ∧ r2.2.decoding_successful = false ∧
        r1.2.iterations_performed = 2 ∧ r2.2.iterations_performed = 3) :=
  ⟨⟨_, _, rfl, rfl, by decide, by decide, by decide, by decide⟩,
   ⟨_, _, rfl, rfl, by decide, by decide, by decide, by decide⟩⟩

/-- C10 amended (determinism relative to the state the loop reads).  Two
invocations of `Run` with the same input and configuration whose decoders
agree, on entry to the loop, on the base-class parameters, the APP RAM and the
message RAM both return, with the same return value and the same
`decoding_successful`, `iterations_performed`, `unsatisfied_parity_checks`,
`modified_systematic_bits`, hard-decision and APP rows below `num_iterations`,
`mean_iterations[1..num_iterations]` and `flipped_bits[i]` for
`1 ≤ i < iterations_performed`, whatever output rows, flags and status slots
the decoders held before. -/
theorem run_determinism {T : Type} (E : Env T) (cfg : Config) (inp : List T)
    (d1 d2 : Decoder T) (fuel : Nat) (hn : cfg.num_iterations < 4294967296)
    (hfuel : cfg.num_iterations < fuel)
    (hshare : (Run_start E cfg inp d1).d.share = (Run_start E cfg inp d2).d.share)
    (happ : (Run_start E cfg inp d1).d.app_ram_ = (Run_start E cfg inp d2).d.app_ram_)
    (hmsg : (Run_start E cfg inp d1).d.msg_ram_ = (Run_start E cfg inp d2).d.msg_ram_) :
    ∃ r1 r2, Run E cfg inp fuel d1 = some r1 ∧ Run E cfg inp fuel d2 = some r2 ∧
      r1.1 = r2.1 ∧
      r1.2.decoding_successful = r2.2.decoding_successful ∧
      r1.2.iterations_performed = r2.2.iterations_performed ∧
      r1.2.num_unsatisfied_parity_checks = r2.2.num_unsatisfied_parity_checks ∧
      r1.2.num_modified_systematic_bits = r2.2.num_modified_systematic_bits ∧
      (∀ j, j < cfg.num_iterations →
        r1.2.output_bits j = r2.2.output_bits j ∧
        r1.2.output_bits_llr_app j = r2.2.output_bits_llr_app j) ∧
      (∀ i, 1 ≤ i → i ≤ cfg.num_iterations →
        r1.2.mean_iterations i = r2.2.mean_iterations i) ∧
      (∀ i, 1 ≤ i → i < r1.2.iterations_performed →
        r1.2.flipped_bits i = r2.2.flipped_bits i) := by
  have hcore : sameCore (Run_start E cfg inp d1) (Run_start E cfg inp d2) :=
    ⟨hshare, happ, hmsg, rfl, rfl, rfl, rfl⟩
  obtain ⟨m, hm, hs1⟩ := stopsAt_exists E cfg inp d1 hn
  have hs2 := stopsAt_core E cfg inp d1 d2 hcore m hs1
  have hc := iterState_core E cfg inp d1 d2 hcore (m + 1)
  have hit1 : (finalDecoder E cfg inp d1 (m + 1)).iterations_performed = m + 1 :=
    finalDecoder_iterations E cfg inp d1 (m + 1) (by omega)
  have hit2 : (finalDecoder E cfg inp d2 (m + 1)).iterations_performed = m + 1 :=
    finalDecoder_iterations E cfg inp d2 (m + 1) (by omega)
  refine ⟨(Except.ok 0, finalDecoder E cfg inp d1 (m + 1)),
    (Except.ok 0, finalDecoder E cfg inp d2 (m + 1)),
    Run_of_stopsAt E cfg inp d1 m fuel hn hfuel hm hs1,
    Run_of_stopsAt E cfg inp d2 m fuel hn hfuel hm hs2, rfl, ?_, ?_, ?_, ?_, ?_, ?_, ?_⟩
  · dsimp only
    rw [finalDecoder_success, finalDecoder_success, iterState_success, iterState_success,
      hc.2.2.2.2.2.1]
  · dsimp only
    rw [hit1, hit2]
  · dsimp only
    rw [finalDecoder_unsat, finalDecoder_unsat]
    unfold checkNodes pchkAt
    rw [hshare, hc.2.2.2.2.1]
  · dsimp only
    rw [finalDecoder_modified E cfg inp d1 (m + 1) (by omega) (by omega),
      finalDecoder_modified E cfg inp d2 (m + 1) (by omega) (by omega), hshare,
      (snapBits_core E cfg inp d1 d2 hcore (m + 1 - 1)).1]
  · intro j hj
    dsimp only
    rcases Nat.lt_or_ge j (m + 1) with hlt | hge
    · have h1 := finalDecoder_rows_executed E cfg inp d1 (m + 1) j (by omega) hlt
      have h2 := finalDecoder_rows_executed E cfg inp d2 (m + 1) j (by omega) hlt
      have hsn := snapBits_core E cfg inp d1 d2 hcore j
      rw [h1.1, h1.2, h2.1, h2.2]
      exact hsn
    · have h1 := finalDecoder_rows_filled E cfg inp d1 (m + 1) j (by omega) (by omega) hge hj
      have h2 := finalDecoder_rows_filled E cfg inp d2 (m + 1) j (by omega) (by omega) hge hj
      have hsn := snapBits_core E cfg inp d1 d2 hcore (m + 1 - 1)
      rw [h1.1, h1.2, h2.1, h2.2]
      exact hsn
  · intro i h1 hi
    dsimp only
    rcases Nat.lt_or_ge (m + 1) i with hgt | hle
    · obtain ⟨j, rfl⟩ : ∃ j, i = j + 1 := ⟨i - 1, by omega⟩
      rw [finalDecoder_mean_filled E cfg inp d1 (m + 1) j hn (by omega) (by omega),
        finalDecoder_mean_filled E cfg inp d2 (m + 1) j hn (by omega) (by omega)]
    · rw [finalDecoder_mean_executed E cfg inp d1 (m + 1) i hn (by omega) h1 hle,
        finalDecoder_mean_executed E cfg inp d2 (m + 1) i hn (by omega) h1 hle]
  · intro i h1 hi
    have hi1 : i < m + 1 := by
      have : i < (finalDecoder E cfg inp d1 (m + 1)).iterations_performed := hi
      omega
    dsimp only
    rw [finalDecoder_flipped, finalDecoder_flipped,
      iterState_flipped E cfg inp d1 (m + 1) i (by omega) h1 hi1,
      iterState_flipped E cfg inp d2 (m + 1) i (by omega) h1 hi1,
      (snapBits_core E cfg inp d1 d2 hcore i).1,
      (snapBits_core E cfg inp d1 d2 hcore (i - 1)).1]

/-- Witness of the amended C10: the same input decoded on two decoders that
earlier runs on different inputs left behind. -/
theorem run_determinism_witness :
    ∃ r1 r2,
      Run toyEnv (toyConfig 3 Scheduling.LAYERED) [384, -2] 4
          (afterRun (toyConfig 3 Scheduling.LAYERED) [1, -2] 4 freshDecoder) = some r1 ∧
        Run toyEnv (toyConfig 3 Scheduling.LAYERED) [384, -2] 4
          (afterRun (toyConfig 3 Scheduling.LAYERED) [384, -2] 4 freshDecoder) = some r2 ∧
      r1.1 = r2.1 ∧
      r1.2.decoding_successful = r2.2.decoding_successful ∧
      r1.2.iterations_performed = r2.2.iterations_performed ∧
      r1.2.num_unsatisfied_parity_checks = r2.2.num_unsatisfied_parity_checks ∧
      r1.2.num_modified_systematic_bits = r2.2.num_modified_systematic_bits ∧
      (∀ j, j < (toyConfig 3 Scheduling.LAYERED).num_iterations →
        r1.2.output_bits j = r2.2.output_bits j ∧
        r1.2.output_bits_llr_app j = r2.2.output_bits_llr_app j) ∧
      (∀ i, 1 ≤ i → i ≤ (toyConfig 3 Scheduling.LAYERED).num_iterations →
        r1.2.mean_iterations i = r2.2.mean_iterations i) ∧
      (∀ i, 1 ≤ i → i < r1.2.iterations_performed →
        r1.2.flipped_bits i = r2.2.flipped_bits i) :=
  run_determinism toyEnv (toyConfig 3 Scheduling.LAYERED) [384, -2]
    (afterRun (toyConfig 3 Scheduling.LAYERED) [1, -2] 4 freshDecoder)
    (afterRun (toyConfig 3 Scheduling.LAYERED) [384, -2] 4 freshDecoder) 4
    (by decide) (by decide) rfl rfl rfl

/-! ## The ghost events of a run, in closed form -/

section events
variable {T : Type} (E : Env T) (cfg : Config) (inp : List T) (d : Decoder T)

theorem schedule_trace (d0 : Decoder T) (i : Nat) :
    (schedule E cfg d0 i).2.trace = d0.trace ++ [switchEvent cfg i] := by
  unfold schedule switchEvent
  split <;> rfl

theorem loopBody_trace (s : RunState T) :
    (loopBody E cfg s).d.trace = s.d.trace ++ passEvents cfg s.iter := by
  unfold loopBody passEvents
  dsimp only
  split_ifs <;> simp [schedule_trace]

theorem iterState_trace (i : Nat) (hi : i ≤ 4294967296) :
    (iterState E cfg inp d i).d.trace =
      (Run_start E cfg inp d).d.trace ++ (List.range i).flatMap (passEvents cfg) := by
  induction i with
  | zero => simp [iterState_zero]
  | succ i ih =>
    rw [iterState_succ, loopBody_trace, ih (by omega), iterState_iter E cfg inp d i (by omega),
      List.range_succ, List.flatMap_append]
    simp

theorem fold_trace (k : Nat) (L : List Nat) : ∀ d0 : Decoder T,
    (L.foldl (fun acc j => fillBody k j acc) d0).trace = d0.trace ++ L.flatMap (fillEvents k) := by
  induction L with
  | nil => intro d0; simp
  | cons a L ih =>
    intro d0
    rw [List.foldl_cons, ih]
    simp [fillBody, fillEvents]

theorem finalDecoder_trace (k : Nat) (hk : k ≤ 4294967296) :
    (finalDecoder E cfg inp d k).trace = (Run_start E cfg inp d).d.trace ++ runEvents cfg k := by
  unfold finalDecoder fillAll runEvents
  rw [fold_trace, ← List.append_assoc, ← iterState_trace E cfg inp d k hk]
  rfl

theorem passEvents_safe (n i : Nat) (hi : i < n) (hn : n < 4294967296) (e : Event)
    (he : e ∈ passEvents cfg i) : indexSafe n e = true := by
  have hinc : incU32 i = i + 1 := incU32_of_lt (by omega)
  unfold passEvents at he
  rw [hinc] at he
  simp only [List.mem_append, List.mem_cons, List.mem_singleton, List.not_mem_nil,
    or_false] at he
  rcases he with ((h | h) | h) | h
  · subst h
    unfold switchEvent
    split <;> rfl
  · subst h
    simp [indexSafe, hi]
  · split_ifs at h with h0
    · simp only [List.mem_singleton] at h
      subst h
      have : i ≠ 0 := by simpa using h0
      simp [indexSafe]
      omega
    · simp at h
  · subst h
    simp [indexSafe]
    omega

theorem fillEvents_safe (n k j : Nat) (hk0 : 0 < k) (hkj : k ≤ j) (hj : j < n)
    (hn : n < 4294967296) (e : Event) (he : e ∈ fillEvents k j) : indexSafe n e = true := by
  have hinc : incU32 j = j + 1 := incU32_of_lt (by omega)
  have hdec : decU32 k = k - 1 := decU32_of_pos hk0 (by omega)
  unfold fillEvents at he
  rw [hinc, hdec] at he
  simp only [List.mem_cons, List.mem_singleton, List.not_mem_nil, or_false] at he
  rcases he with h | h
  · subst h
    simp [indexSafe]
    omega
  · subst h
    simp [indexSafe]
    omega

theorem runEvents_safe (k : Nat) (hk0 : 0 < k) (hk : k ≤ cfg.num_iterations)
    (hn : cfg.num_iterations < 4294967296) (e : Event) (he : e ∈ runEvents cfg k) :
    indexSafe cfg.num_iterations e = true := by
  unfold runEvents at he
  rw [List.mem_append, List.mem_flatMap, List.mem_flatMap] at he
  rcases he with ⟨i, hi, hei⟩ | ⟨j, hj, hej⟩
  · rw [List.mem_range] at hi
    exact passEvents_safe cfg _ i (by omega) hn e hei
  · rw [List.mem_range'_1] at hj
    exact fillEvents_safe _ k j hk0 hj.1 (by omega) hn e hej

theorem runEvents_row_copy (k dst src : Nat) (hk0 : 0 < k) (hk : k < 4294967296)
    (he : Event.row_copy dst src ∈ runEvents cfg k) :
    src + 1 = k ∧ k ≤ dst ∧ Event.read_app_ram src ∈ runEvents cfg k := by
  have hdec : decU32 k = k - 1 := decU32_of_pos hk0 hk
  have hsrc : src = k - 1 ∧ k ≤ dst := by
    unfold runEvents at he
    rw [List.mem_append, List.mem_flatMap, List.mem_flatMap] at he
    rcases he with ⟨i, _, hei⟩ | ⟨j, hj, hej⟩
    · exfalso
      unfold passEvents switchEvent at hei
      split at hei <;> split_ifs at hei <;> simp at hei
    · rw [List.mem_range'_1] at hj
      unfold fillEvents at hej
      rw [hdec] at hej
      simp at hej
      omega
  refine ⟨by omega, hsrc.2, ?_⟩
  unfold runEvents
  rw [List.mem_append, List.mem_flatMap]
  left
  refine ⟨src, by rw [List.mem_range]; omega, ?_⟩
  unfold passEvents
  simp

theorem passEvents_count (i : Nat) :
    (passEvents cfg i).countP isSwitch = 1 ∧ (passEvents cfg i).countP isRowCopy = 0 := by
  unfold passEvents switchEvent
  split <;> split_ifs <;> simp [List.countP_cons, isSwitch, isRowCopy]

theorem passEvents_decode (i : Nat) (h : ∀ code, cfg.scheduling ≠ Scheduling.UNSUPPORTED code) :
    (passEvents cfg i).countP isDecode = 1 := by
  unfold passEvents switchEvent
  split
  · split_ifs <;> simp [List.countP_cons, isDecode]
  · split_ifs <;> simp [List.countP_cons, isDecode]
  · rename_i code hc
    exact absurd hc (h code)

theorem fillEvents_count (k j : Nat) :
    (fillEvents k j).countP isSwitch = 0 ∧ (fillEvents k j).countP isDecode = 0 ∧
      (fillEvents k j).countP isRowCopy = 1 := by
  unfold fillEvents
  simp [List.countP_cons, isSwitch, isDecode, isRowCopy]

theorem countP_flatMap_const {α : Type} (p : Event → Bool) (f : α → List Event) (c : Nat)
    (L : List α) (h : ∀ a, (f a).countP p = c) : (L.flatMap f).countP p = c * L.length := by
  induction L with
  | nil => simp
  | cons a L ih =>
    rw [List.flatMap_cons, List.countP_append, h a, ih, List.length_cons]
    ring

theorem runEvents_count (k : Nat) :
    (runEvents cfg k).countP isSwitch = k ∧
      (runEvents cfg k).countP isRowCopy = cfg.num_iterations - k := by
  unfold runEvents
  rw [List.countP_append, List.countP_append,
    countP_flatMap_const isSwitch (passEvents cfg) 1 _ (fun a => (passEvents_count cfg a).1),
    countP_flatMap_const isSwitch (fillEvents k) 0 _ (fun a => (fillEvents_count k a).1),
    countP_flatMap_const isRowCopy (passEvents cfg) 0 _ (fun a => (passEvents_count cfg a).2),
    countP_flatMap_const isRowCopy (fillEvents k) 1 _ (fun a => (fillEvents_count k a).2.2)]
  simp

theorem runEvents_decode (k : Nat) (h : ∀ code, cfg.scheduling ≠ Scheduling.UNSUPPORTED code) :
    (runEvents cfg k).countP isDecode = k := by
  unfold runEvents
  rw [List.countP_append,
    countP_flatMap_const isDecode (passEvents cfg) 1 _ (fun a => passEvents_decode cfg a h),
    countP_flatMap_const isDecode (fillEvents k) 0 _ (fun a => (fillEvents_count k a).2.1)]
  simp

end events

/-! ## Iteration bound and quantization for all widths -/

/-- C11 as stated fails at `num_iterations = 0`: the loop body runs once and
`Run` writes `iterations_performed = 1`, which exceeds `num_iterations`. -/
theorem iteration_bound_counterexample :
    ∃ r, Run toyEnv (toyConfig 0 Scheduling.LAYERED) [384, -2] 1 freshDecoder = some r ∧
      r.2.iterations_performed = 1 ∧
      ¬ r.2.iterations_performed ≤ (toyConfig 0 Scheduling.LAYERED).num_iterations :=
  ⟨_, rfl, by decide, by decide⟩

/-- C11 amended (iteration bound).  `Run` returns, and the count `k` it writes
to `iterations_performed` satisfies `1 ≤ k ≤ max 1 num_iterations`; hence
`k ≤ num_iterations` whenever `num_iterations ≥ 1`. -/
theorem iteration_bound {T : Type} (E : Env T) (cfg : Config) (inp : List T) (d : Decoder T)
    (fuel : Nat) (hn : cfg.num_iterations < 4294967296) (hfuel : cfg.num_iterations < fuel) :
    ∃ r, Run E cfg inp fuel d = some r ∧ 1 ≤ r.2.iterations_performed ∧
      r.2.iterations_performed ≤ max 1 cfg.num_iterations ∧
      (1 ≤ cfg.num_iterations → r.2.iterations_performed ≤ cfg.num_iterations) := by
  obtain ⟨m, hm, hs⟩ := stopsAt_exists E cfg inp d hn
  have hit : (finalDecoder E cfg inp d (m + 1)).iterations_performed = m + 1 :=
    finalDecoder_iterations E cfg inp d (m + 1) (by omega)
  refine ⟨(Except.ok 0, finalDecoder E cfg inp d (m + 1)),
    Run_of_stopsAt E cfg inp d m fuel hn hfuel hm hs, ?_, ?_, ?_⟩
  · dsimp only; omega
  · dsimp only; omega
  · intro h1; dsimp only; omega

/-- Witness of the amended C11: ten rows, convergence at the first iteration. -/
theorem iteration_bound_witness :
    ∃ r, Run toyEnv (toyConfig 10 Scheduling.LAYERED) [384, -2] 11 freshDecoder = some r ∧
      1 ≤ r.2.iterations_performed ∧
      r.2.iterations_performed ≤ max 1 (toyConfig 10 Scheduling.LAYERED).num_iterations ∧
      (1 ≤ (toyConfig 10 Scheduling.LAYERED).num_iterations →
        r.2.iterations_performed ≤ (toyConfig 10 Scheduling.LAYERED).num_iterations) :=
  iteration_bound toyEnv (toyConfig 10 Scheduling.LAYERED) [384, -2] freshDecoder 11
    (by decide) (by decide)

/-- C12 as stated fails at a width of 33 bits: `1 << 32` reduced modulo `2^32`
is 0, so `Set_LDPC_Parameters` sets `max_msg_extr_ = -1`, not `2^32 - 1`. -/
theorem quantization_counterexample :
    2 ≤ wideConfig.bw_extr ∧
      (Set_LDPC_Parameters toyEnv wideConfig freshDecoder).share.max_msg_extr_ = -1 ∧
      (Set_LDPC_Parameters toyEnv wideConfig freshDecoder).share.max_msg_extr_ ≠
        2 ^ (wideConfig.bw_extr - 1) - 1 :=
  ⟨by decide, by decide, by decide⟩

/-- C12 amended (quantization contract for the widths of a 32-bit `int`).
For every width `b` with `2 ≤ b ≤ 32`, `Set_LDPC_Parameters` sets
`max_msg_extr_ = 2^(b-1) - 1` when `bw_extr() = b` and
`max_msg_app_ = 2^(b-1) - 1` when `bw_app() = b`, the expression
`(1 << (b - 1)) - 1` being evaluated on `int` with overflow reduced modulo `2^32`. -/
theorem quantization_bounds {T : Type} (E : Env T) (cfg : Config) (d : Decoder T) (b : Nat)
    (h2 : 2 ≤ b) (h32 : b ≤ 32) :
    (cfg.bw_extr = b →
      (Set_LDPC_Parameters E cfg d).share.max_msg_extr_ = 2 ^ (b - 1) - 1) ∧
    (cfg.bw_app = b →
      (Set_LDPC_Parameters E cfg d).share.max_msg_app_ = 2 ^ (b - 1) - 1) := by
  have hmax : max_msg b = 2 ^ (b - 1) - 1 := by
    interval_cases b <;> decide
  constructor
  · intro h
    show max_msg cfg.bw_extr = _
    rw [h, hmax]
  · intro h
    show max_msg cfg.bw_app = _
    rw [h, hmax]

/-- Witness of the amended C12: the width 32, where both the shift and the
subtraction wrap around, gives `2^31 - 1`. -/
theorem quantization_bounds_witness :
    (Set_LDPC_Parameters toyEnv { toyConfig 3 Scheduling.LAYERED with bw_extr := 32 }
        freshDecoder).share.max_msg_extr_ = 2 ^ (32 - 1) - 1 :=
  (quantization_bounds toyEnv { toyConfig 3 Scheduling.LAYERED with bw_extr := 32 }
    freshDecoder 32 (by decide) (by decide)).1 rfl

/-! ## The loop of `Run` and the Convergence Monitor -/

section monitor
variable {T : Type} (E : Env T) (cfg : Config) (inp : List T) (d : Decoder T)

theorem liftState_step (s : RunState T) (hrun : loopCond cfg s = true)
    (hinv : s.d.decoding_successful = s.next_iter_is_last_iter)
    (hiter : s.iter + 1 < 4294967296) :
    liftState cfg (loopBody E cfg s) =
      specMonitorStep s.d.share.num_check_nodes_ cfg.num_iterations (liftState cfg s)
        (loopBody E cfg s).pchk_satisfied := by
  have hit := loopBody_iter E cfg s
  have hl := loopBody_last E cfg s
  have hnx := loopBody_next E cfg s
  have hsu := loopBody_success E cfg s
  rw [incU32_of_lt hiter] at hit
  unfold liftState specMonitorStep
  rw [hrun]
  unfold loopCond
  rw [hit, hl, hnx, hsu, hinv]
  cases h1 : s.next_iter_is_last_iter <;>
    cases h2 : ((loopBody E cfg s).pchk_satisfied == s.d.share.num_check_nodes_) <;>
    by_cases h3 : s.iter + 1 < cfg.num_iterations <;>
    first
    | (have h4 : ¬ cfg.num_iterations ≤ s.iter + 1 := by omega
       simp [h3, h4])
    | (have h4 : cfg.num_iterations ≤ s.iter + 1 := by omega
       simp [h3, h4])

theorem loopCond_running (i m : Nat) (hn1 : 1 ≤ cfg.num_iterations)
    (hs : stopsAt E cfg inp d m) (hi : i ≤ m) :
    loopCond cfg (iterState E cfg inp d i) = true := by
  rcases Nat.eq_zero_or_pos i with h0 | hpos
  · subst h0
    have hz : 0 < cfg.num_iterations := hn1
    simp [iterState_zero, loopCond, Run_start, hz]
  · obtain ⟨j, rfl⟩ : ∃ j, i = j + 1 := ⟨i - 1, by omega⟩
    exact hs.1 j (by omega)

theorem monitor_simulation (m : Nat) (hn1 : 1 ≤ cfg.num_iterations)
    (hn : cfg.num_iterations < 4294967296) (hm : m < max 1 cfg.num_iterations)
    (hs : stopsAt E cfg inp d m) :
    ∀ i, i ≤ m + 1 →
      liftState cfg (iterState E cfg inp d i) =
        specMonitorRun (checkNodes E cfg inp d) cfg.num_iterations (pchkAt E cfg inp d) i := by
  intro i
  induction i with
  | zero =>
    intro _
    have hz : 0 < cfg.num_iterations := hn1
    have hsucc := Run_start_success E cfg inp d
    unfold specMonitorRun specMonitorInit liftState
    rw [iterState_zero, hsucc]
    simp [loopCond, Run_start, hz]
  | succ i ih =>
    intro hi
    have hstep := liftState_step E cfg (iterState E cfg inp d i)
      (loopCond_running E cfg inp d i m hn1 hs (by omega))
      (iterState_success E cfg inp d i)
      (by rw [iterState_iter E cfg inp d i (by omega)]; omega)
    rw [← iterState_succ, iterState_share, ih (by omega)] at hstep
    rw [hstep]
    rfl

theorem monitor_done_stays (nc n : Nat) (counts : Nat → Nat) (i : Nat)
    (h : (specMonitorRun nc n counts i).state = MonitorState.DONE) :
    ∀ j, specMonitorRun nc n counts (i + j) = specMonitorRun nc n counts i := by
  intro j
  induction j with
  | zero => rfl
  | succ j ih =>
    show specMonitorStep nc n (specMonitorRun nc n counts (i + j)) _ = _
    rw [ih]
    unfold specMonitorStep
    rw [h]

end monitor

/-- C13 (the loop of `Run` refines the Convergence Monitor of spec 4.4).  For
`num_iterations ≥ 1`, `Run` returns, and with `k = iterations_performed`:
after each of the passes `0, ..., k` the loop state stands for the state the
monitor reaches on the same counts (`liftState`); the monitor is not `DONE`
before pass `k`; from pass `k` on it is `DONE` with counter `k` and with the
success flag that `Run` writes; and when convergence is first detected on
iteration `num_iterations`, there is no extra pass. -/
theorem monitor_refinement {T : Type} (E : Env T) (cfg : Config) (inp : List T)
    (d : Decoder T) (fuel : Nat) (hn1 : 1 ≤ cfg.num_iterations)
    (hn : cfg.num_iterations < 4294967296) (hfuel : cfg.num_iterations < fuel) :
    ∃ r, Run E cfg inp fuel d = some r ∧
      (∀ i, i ≤ r.2.iterations_performed →
        liftState cfg (iterState E cfg inp d i) =
          specMonitorRun (checkNodes E cfg inp d) cfg.num_iterations (pchkAt E cfg inp d) i) ∧
      (∀ i, i < r.2.iterations_performed →
        (specMonitorRun (checkNodes E cfg inp d) cfg.num_iterations (pchkAt E cfg inp d) i).state
          ≠ MonitorState.DONE) ∧
      (∀ i, r.2.iterations_performed ≤ i →
        specMonitorRun (checkNodes E cfg inp d) cfg.num_iterations (pchkAt E cfg inp d) i =
          { state := MonitorState.DONE, counter := r.2.iterations_performed,
            success := r.2.decoding_successful }) ∧
      (pchkAt E cfg inp d cfg.num_iterations = checkNodes E cfg inp d →
        (∀ j, 1 ≤ j → j < cfg.num_iterations → pchkAt E cfg inp d j ≠ checkNodes E cfg inp d) →
        r.2.iterations_performed = cfg.num_iterations ∧ r.2.decoding_successful = true) := by
  obtain ⟨m, hm, hs⟩ := stopsAt_exists E cfg inp d hn
  have hit : (finalDecoder E cfg inp d (m + 1)).iterations_performed = m + 1 :=
    finalDecoder_iterations E cfg inp d (m + 1) (by omega)
  have hsim := monitor_simulation E cfg inp d m hn1 hn hm hs
  have hlast : specMonitorRun (checkNodes E cfg inp d) cfg.num_iterations (pchkAt E cfg inp d)
      (m + 1) = { state := MonitorState.DONE, counter := m + 1,
                  success := (finalDecoder E cfg inp d (m + 1)).decoding_successful } := by
    rw [← hsim (m + 1) (le_refl _), finalDecoder_success]
    unfold liftState
    rw [hs.2, iterState_iter E cfg inp d (m + 1) (by omega)]
    rfl
  refine ⟨(Except.ok 0, finalDecoder E cfg inp d (m + 1)),
    Run_of_stopsAt E cfg inp d m fuel hn hfuel hm hs, ?_, ?_, ?_, ?_⟩
  · intro i hi
    exact hsim i (by
      have : i ≤ (finalDecoder E cfg inp d (m + 1)).iterations_performed := hi
      omega)
  · intro i hi
    have hi1 : i ≤ m := by
      have : i < (finalDecoder E cfg inp d (m + 1)).iterations_performed := hi
      omega
    rw [← hsim i (by omega)]
    unfold liftState
    rw [loopCond_running E cfg inp d i m hn1 hs hi1, if_pos rfl]
    dsimp only
    split_ifs <;> simp
  · intro i hi
    have hi1 : m + 1 ≤ i := by
      have : (finalDecoder E cfg inp d (m + 1)).iterations_performed ≤ i := hi
      omega
    obtain ⟨j, rfl⟩ : ∃ j, i = m + 1 + j := ⟨i - (m + 1), by omega⟩
    rw [monitor_done_stays _ _ _ (m + 1) (by rw [hlast]) j, hlast]
    dsimp only
    rw [hit]
  · intro hconv hfirst
    have hk : m + 1 = cfg.num_iterations := by
      by_contra hne
      have hlt : m + 1 < cfg.num_iterations := by omega
      have hc := hs.2
      rw [← Bool.not_eq_true, loopCond_iterState E cfg inp d m (by omega)] at hc
      apply hc
      refine ⟨hlt, ?_⟩
      rintro ⟨l, hl1, hl2, hl3⟩
      exact hfirst l hl1 (by omega) hl3
    constructor
    · dsimp only
      rw [hit, hk]
    · dsimp only
      rw [finalDecoder_success, iterState_success, iterState_next_iff]
      exact ⟨cfg.num_iterations, hn1, by omega, hconv⟩

/-- Witness of C13: three rows, convergence at the first iteration. -/
theorem monitor_refinement_witness :
    ∃ r, Run toyEnv (toyConfig 3 Scheduling.LAYERED) [384, -2] 4 freshDecoder = some r ∧
      (∀ i, i ≤ r.2.iterations_performed →
        liftState (toyConfig 3 Scheduling.LAYERED)
            (iterState toyEnv (toyConfig 3 Scheduling.LAYERED) [384, -2] freshDecoder i) =
          specMonitorRun
            (checkNodes toyEnv (toyConfig 3 Scheduling.LAYERED) [384, -2] freshDecoder)
            (toyConfig 3 Scheduling.LAYERED).num_iterations
            (pchkAt toyEnv (toyConfig 3 Scheduling.LAYERED) [384, -2] freshDecoder) i) ∧
      (∀ i, i < r.2.iterations_performed →
        (specMonitorRun
            (checkNodes toyEnv (toyConfig 3 Scheduling.LAYERED) [384, -2] freshDecoder)
            (toyConfig 3 Scheduling.LAYERED).num_iterations
            (pchkAt toyEnv (toyConfig 3 Scheduling.LAYERED) [384, -2] freshDecoder) i).state
          ≠ MonitorState.DONE) ∧
      (∀ i, r.2.iterations_performed ≤ i →
        specMonitorRun
            (checkNodes toyEnv (toyConfig 3 Scheduling.LAYERED) [384, -2] freshDecoder)
            (toyConfig 3 Scheduling.LAYERED).num_iterations
            (pchkAt toyEnv (toyConfig 3 Scheduling.LAYERED) [384, -2] freshDecoder) i =
          { state := MonitorState.DONE, counter := r.2.iterations_performed,
            success := r.2.decoding_successful }) ∧
      (pchkAt toyEnv (toyConfig 3 Scheduling.LAYERED) [384, -2] freshDecoder
            (toyConfig 3 Scheduling.LAYERED).num_iterations =
          checkNodes toyEnv (toyConfig 3 Scheduling.LAYERED) [384, -2] freshDecoder →
        (∀ j, 1 ≤ j → j < (toyConfig 3 Scheduling.LAYERED).num_iterations →
          pchkAt toyEnv (toyConfig 3 Scheduling.LAYERED) [384, -2] freshDecoder j ≠
            checkNodes toyEnv (toyConfig 3 Scheduling.LAYERED) [384, -2] freshDecoder) →
        r.2.iterations_performed = (toyConfig 3 Scheduling.LAYERED).num_iterations ∧
          r.2.decoding_successful = true) :=
  monitor_refinement toyEnv (toyConfig 3 Scheduling.LAYERED) [384, -2] freshDecoder 4
    (by decide) (by decide) (by decide)

/-! ## State on entry to the loop -/

section entry
variable {T : Type} (E : Env T) (cfg : Config) (inp : List T) (d : Decoder T)

theorem Init_check_nodes (d0 : Decoder T) : (Init E cfg d0).share.num_check_nodes_ = 384 := by
  unfold Init Init_catch Init_try Set_LDPC_Parameters
  dsimp only
  repeat' split
  all_goals rfl

theorem checkNodes_eq (h : d.config_modified = true ∨ d.share.num_check_nodes_ = 384) :
    checkNodes E cfg inp d = 384 := by
  unfold checkNodes Run_start
  dsimp only
  split_ifs with hc
  · exact Init_check_nodes E cfg _
  · rcases h with h | h
    · exact absurd h hc
    · exact h

theorem stopsAt_of_first (k : Nat) (hn : cfg.num_iterations < 4294967296) (hk1 : 1 ≤ k)
    (hkn : k < cfg.num_iterations)
    (hconv : pchkAt E cfg inp d k = checkNodes E cfg inp d)
    (hfirst : ∀ j, 1 ≤ j → j < k → pchkAt E cfg inp d j ≠ checkNodes E cfg inp d) :
    stopsAt E cfg inp d k := by
  constructor
  · intro j hj
    rw [loopCond_iterState E cfg inp d j (by omega)]
    refine ⟨by omega, ?_⟩
    rintro ⟨l, hl1, hl2, hl3⟩
    exact hfirst l hl1 (by omega) hl3
  · rw [← Bool.not_eq_true, loopCond_iterState E cfg inp d k (by omega)]
    intro h
    exact h.2 ⟨k, hk1, le_refl k, hconv⟩

theorem stopsAt_of_never (hn : cfg.num_iterations < 4294967296)
    (hnever : ∀ j, 1 ≤ j → j ≤ max 1 cfg.num_iterations →
      pchkAt E cfg inp d j ≠ checkNodes E cfg inp d) :
    stopsAt E cfg inp d (max 1 cfg.num_iterations - 1) := by
  constructor
  · intro j hj
    rw [loopCond_iterState E cfg inp d j (by omega)]
    refine ⟨by omega, ?_⟩
    rintro ⟨l, hl1, hl2, hl3⟩
    exact hnever l hl1 (by omega) hl3
  · rw [← Bool.not_eq_true, loopCond_iterState E cfg inp d _ (by omega)]
    intro h
    omega

end entry

section entry_modified
variable {T : Type} (E : Env T) (cfg : Config) (inp : List T) (d : Decoder T)

end entry_modified

/-- C15 (index safety).  For `num_iterations ≥ 1`, `Run` returns, the events it
adds to the trace are `runEvents` for `k = iterations_performed` passes, and
every one of them is index-safe: rows written by `Read_APP_RAM` and by the
backfill are below `num_iterations`, `mean_iterations` slots lie in
`1..num_iterations`, `flipped_bits` slots in `1..num_iterations-1`; every row
copy reads row `k - 1`, which a pass of this run has written, and `k ≥ 1`, so
`iter - 1` does not wrap. -/
theorem index_safety {T : Type} (E : Env T) (cfg : Config) (inp : List T) (d : Decoder T)
    (fuel : Nat) (hn1 : 1 ≤ cfg.num_iterations) (hn : cfg.num_iterations < 4294967296)
    (hfuel : cfg.num_iterations < fuel) :
    ∃ r, Run E cfg inp fuel d = some r ∧
      r.2.trace = (Run_start E cfg inp d).d.trace ++ runEvents cfg r.2.iterations_performed ∧
      (∀ e, e ∈ runEvents cfg r.2.iterations_performed →
        indexSafe cfg.num_iterations e = true) ∧
      (∀ dst src, Event.row_copy dst src ∈ runEvents cfg r.2.iterations_performed →
        src + 1 = r.2.iterations_performed ∧ r.2.iterations_performed ≤ dst ∧
        Event.read_app_ram src ∈ runEvents cfg r.2.iterations_performed) ∧
      1 ≤ r.2.iterations_performed ∧
      decU32 r.2.iterations_performed = r.2.iterations_performed - 1 := by
  obtain ⟨m, hm, hs⟩ := stopsAt_exists E cfg inp d hn
  have hit : (finalDecoder E cfg inp d (m + 1)).iterations_performed = m + 1 :=
    finalDecoder_iterations E cfg inp d (m + 1) (by omega)
  refine ⟨(Except.ok 0, finalDecoder E cfg inp d (m + 1)),
    Run_of_stopsAt E cfg inp d m fuel hn hfuel hm hs, ?_, ?_, ?_, ?_, ?_⟩
  · dsimp only
    rw [hit]
    exact finalDecoder_trace E cfg inp d (m + 1) (by omega)
  · dsimp only
    rw [hit]
    intro e he
    exact runEvents_safe cfg (m + 1) (by omega) (by omega) hn e he
  · dsimp only
    rw [hit]
    intro dst src he
    exact runEvents_row_copy cfg (m + 1) dst src (by omega) (by omega) he
  · dsimp only; omega
  · dsimp only
    rw [hit]
    exact decU32_of_pos (by omega) (by omega)

/-- Witness of C15: three rows, convergence at the first iteration. -/
theorem index_safety_witness :
    ∃ r, Run toyEnv (toyConfig 3 Scheduling.LAYERED) [384, -2] 4 freshDecoder = some r ∧
      r.2.trace =
        (Run_start toyEnv (toyConfig 3 Scheduling.LAYERED) [384, -2] freshDecoder).d.trace ++
          runEvents (toyConfig 3 Scheduling.LAYERED) r.2.iterations_performed ∧
      (∀ e, e ∈ runEvents (toyConfig 3 Scheduling.LAYERED) r.2.iterations_performed →
        indexSafe (toyConfig 3 Scheduling.LAYERED).num_iterations e = true) ∧
      (∀ dst src,
        Event.row_copy dst src ∈
            runEvents (toyConfig 3 Scheduling.LAYERED) r.2.iterations_performed →
        src + 1 = r.2.iterations_performed ∧ r.2.iterations_performed ≤ dst ∧
        Event.read_app_ram src ∈
          runEvents (toyConfig 3 Scheduling.LAYERED) r.2.iterations_performed) ∧
      1 ≤ r.2.iterations_performed ∧
      decU32 r.2.iterations_performed = r.2.iterations_performed - 1 :=
  index_safety toyEnv (toyConfig 3 Scheduling.LAYERED) [384, -2] freshDecoder 4
    (by decide) (by decide) (by decide)

/-- C16 (termination).  For every `num_iterations`, 0 included, both loops of
`Run` return: the decode loop after `k = iterations_performed` passes with
`1 ≤ k ≤ max 1 num_iterations`, each pass executing the scheduling switch once
(a scheduler call when the selector is supported), and the backfill loop after
`num_iterations - k` steps. -/
theorem run_terminates {T : Type} (E : Env T) (cfg : Config) (inp : List T) (d : Decoder T)
    (fuel : Nat) (hn : cfg.num_iterations < 4294967296) (hfuel : cfg.num_iterations < fuel) :
    ∃ r, Run E cfg inp fuel d = some r ∧
      doWhile E cfg fuel (Run_start E cfg inp d) =
        some (iterState E cfg inp d r.2.iterations_performed) ∧
      backfill cfg r.2.iterations_performed fuel r.2.iterations_performed
        (Run_finish E inp (iterState E cfg inp d r.2.iterations_performed)) = some r.2 ∧
      1 ≤ r.2.iterations_performed ∧
      r.2.iterations_performed ≤ max 1 cfg.num_iterations ∧
      r.2.trace = (Run_start E cfg inp d).d.trace ++ runEvents cfg r.2.iterations_performed ∧
      (runEvents cfg r.2.iterations_performed).countP isSwitch = r.2.iterations_performed ∧
      ((∀ code, cfg.scheduling ≠ Scheduling.UNSUPPORTED code) →
        (runEvents cfg r.2.iterations_performed).countP isDecode = r.2.iterations_performed) ∧
      (runEvents cfg r.2.iterations_performed).countP isRowCopy =
        cfg.num_iterations - r.2.iterations_performed := by
  obtain ⟨m, hm, hs⟩ := stopsAt_exists E cfg inp d hn
  have hit : (finalDecoder E cfg inp d (m + 1)).iterations_performed = m + 1 :=
    finalDecoder_iterations E cfg inp d (m + 1) (by omega)
  refine ⟨(Except.ok 0, finalDecoder E cfg inp d (m + 1)),
    Run_of_stopsAt E cfg inp d m fuel hn hfuel hm hs, ?_, ?_, ?_, ?_, ?_, ?_, ?_, ?_⟩
  · dsimp only
    rw [hit]
    exact doWhile_of_stopsAt E cfg inp d m fuel hs (by omega)
  · dsimp only
    rw [hit, backfill_eq cfg (m + 1) hn fuel (m + 1) _ (by omega)]
    rfl
  · dsimp only; omega
  · dsimp only; omega
  · dsimp only
    rw [hit]
    exact finalDecoder_trace E cfg inp d (m + 1) (by omega)
  · dsimp only
    rw [hit]
    exact (runEvents_count cfg (m + 1)).1
  · intro h
    dsimp only
    rw [hit]
    exact runEvents_decode cfg (m + 1) h
  · dsimp only
    rw [hit]
    exact (runEvents_count cfg (m + 1)).2

/-- Witness of C16: `num_iterations = 0`, where the decode loop makes one pass
and the backfill loop no step. -/
theorem run_terminates_witness :
    ∃ r, Run toyEnv (toyConfig 0 Scheduling.LAYERED) [1, -2] 1 freshDecoder = some r ∧
      doWhile toyEnv (toyConfig 0 Scheduling.LAYERED) 1
          (Run_start toyEnv (toyConfig 0 Scheduling.LAYERED) [1, -2] freshDecoder) =
        some (iterState toyEnv (toyConfig 0 Scheduling.LAYERED) [1, -2] freshDecoder
          r.2.iterations_performed) ∧
      backfill (toyConfig 0 Scheduling.LAYERED) r.2.iterations_performed 1
        r.2.iterations_performed
        (Run_finish toyEnv [1, -2]
          (iterState toyEnv (toyConfig 0 Scheduling.LAYERED) [1, -2] freshDecoder
            r.2.iterations_performed)) = some r.2 ∧
      1 ≤ r.2.iterations_performed ∧
      r.2.iterations_performed ≤ max 1 (toyConfig 0 Scheduling.LAYERED).num_iterations ∧
      r.2.trace =
        (Run_start toyEnv (toyConfig 0 Scheduling.LAYERED) [1, -2] freshDecoder).d.trace ++
          runEvents (toyConfig 0 Scheduling.LAYERED) r.2.iterations_performed ∧
      (runEvents (toyConfig 0 Scheduling.LAYERED) r.2.iterations_performed).countP isSwitch =
        r.2.iterations_performed ∧
      ((∀ code, (toyConfig 0 Scheduling.LAYERED).scheduling ≠ Scheduling.UNSUPPORTED code) →
        (runEvents (toyConfig 0 Scheduling.LAYERED) r.2.iterations_performed).countP isDecode =
          r.2.iterations_performed) ∧
      (runEvents (toyConfig 0 Scheduling.LAYERED) r.2.iterations_performed).countP isRowCopy =
        (toyConfig 0 Scheduling.LAYERED).num_iterations - r.2.iterations_performed :=
  run_terminates toyEnv (toyConfig 0 Scheduling.LAYERED) [1, -2] freshDecoder 1
    (by decide) (by decide)

/-! ## The success flag -/

/-- C17 (success flag).  `Run` returns with `decoding_successful = true` if and
only if one of the `iterations_performed` executed iterations returned a
satisfied-check count equal to `num_check_nodes_`; the flag is `false` on entry
to the loop, and once it is `true` after some pass it is `true` after every
later pass. -/
theorem success_flag {T : Type} (E : Env T) (cfg : Config) (inp : List T) (d : Decoder T)
    (fuel : Nat) (hn : cfg.num_iterations < 4294967296) (hfuel : cfg.num_iterations < fuel) :
    ∃ r, Run E cfg inp fuel d = some r ∧
      (r.2.decoding_successful = true ↔
        ∃ j, 1 ≤ j ∧ j ≤ r.2.iterations_performed ∧
          pchkAt E cfg inp d j = checkNodes E cfg inp d) ∧
      (Run_start E cfg inp d).d.decoding_successful = false ∧
      (∀ i j, i ≤ j → (iterState E cfg inp d i).d.decoding_successful = true →
        (iterState E cfg inp d j).d.decoding_successful = true) ∧
      r.2.decoding_successful =
        (iterState E cfg inp d r.2.iterations_performed).d.decoding_successful := by
  obtain ⟨m, hm, hs⟩ := stopsAt_exists E cfg inp d hn
  have hit : (finalDecoder E cfg inp d (m + 1)).iterations_performed = m + 1 :=
    finalDecoder_iterations E cfg inp d (m + 1) (by omega)
  refine ⟨(Except.ok 0, finalDecoder E cfg inp d (m + 1)),
    Run_of_stopsAt E cfg inp d m fuel hn hfuel hm hs, ?_, Run_start_success E cfg inp d, ?_, ?_⟩
  · dsimp only
    rw [hit, finalDecoder_success, iterState_success, iterState_next_iff]
  · intro i j hij h
    rw [iterState_success, iterState_next_iff] at h ⊢
    obtain ⟨l, hl1, hl2, hl3⟩ := h
    exact ⟨l, hl1, by omega, hl3⟩
  · dsimp only
    rw [hit, finalDecoder_success]

/-- Witness of C17: ten rows, convergence at the first iteration. -/
theorem success_flag_witness :
    ∃ r, Run toyEnv (toyConfig 10 Scheduling.LAYERED) [384, -2] 11 freshDecoder = some r ∧
      (r.2.decoding_successful = true ↔
        ∃ j, 1 ≤ j ∧ j ≤ r.2.iterations_performed ∧
          pchkAt toyEnv (toyConfig 10 Scheduling.LAYERED) [384, -2] freshDecoder j =
            checkNodes toyEnv (toyConfig 10 Scheduling.LAYERED) [384, -2] freshDecoder) ∧
      (Run_start toyEnv (toyConfig 10 Scheduling.LAYERED) [384, -2]
        freshDecoder).d.decoding_successful = false ∧
      (∀ i j, i ≤ j →
        (iterState toyEnv (toyConfig 10 Scheduling.LAYERED) [384, -2]
          freshDecoder i).d.decoding_successful = true →
        (iterState toyEnv (toyConfig 10 Scheduling.LAYERED) [384, -2]
          freshDecoder j).d.decoding_successful = true) ∧
      r.2.decoding_successful =
        (iterState toyEnv (toyConfig 10 Scheduling.LAYERED) [384, -2] freshDecoder
          r.2.iterations_performed).d.decoding_successful :=
  success_flag toyEnv (toyConfig 10 Scheduling.LAYERED) [384, -2] freshDecoder 11
    (by decide) (by decide)

/-- C18 (success does not imply zero unsatisfied checks).  If iteration `k` is
the first to return `num_check_nodes_`, `k < num_iterations`, and the extra
iteration `k + 1` returns fewer, then `Run` returns with
`decoding_successful = true` and
`unsatisfied_parity_checks = num_check_nodes_ - (count of iteration k + 1) > 0`. -/
theorem success_with_unsatisfied {T : Type} (E : Env T) (cfg : Config) (inp : List T)
    (d : Decoder T) (fuel k : Nat) (hn : cfg.num_iterations < 4294967296)
    (hfuel : cfg.num_iterations < fuel) (hk1 : 1 ≤ k) (hkn : k < cfg.num_iterations)
    (hconv : pchkAt E cfg inp d k = checkNodes E cfg inp d)
    (hfirst : ∀ j, 1 ≤ j → j < k → pchkAt E cfg inp d j ≠ checkNodes E cfg inp d)
    (hextra : pchkAt E cfg inp d (k + 1) < checkNodes E cfg inp d)
    (hnc : checkNodes E cfg inp d < 4294967296) :
    ∃ r, Run E cfg inp fuel d = some r ∧ r.2.decoding_successful = true ∧
      0 < r.2.num_unsatisfied_parity_checks ∧
      r.2.num_unsatisfied_parity_checks =
        checkNodes E cfg inp d - pchkAt E cfg inp d (k + 1) := by
  have hs := stopsAt_of_first E cfg inp d k hn hk1 hkn hconv hfirst
  have hun : (finalDecoder E cfg inp d (k + 1)).num_unsatisfied_parity_checks =
      checkNodes E cfg inp d - pchkAt E cfg inp d (k + 1) := by
    rw [finalDecoder_unsat, subU32_of_le (by omega) hnc]
  refine ⟨(Except.ok 0, finalDecoder E cfg inp d (k + 1)),
    Run_of_stopsAt E cfg inp d k fuel hn hfuel (by omega) hs, ?_, ?_, hun⟩
  · dsimp only
    rw [finalDecoder_success, iterState_success, iterState_next_iff]
    exact ⟨k, hk1, by omega, hconv⟩
  · dsimp only
    rw [hun]
    omega

/-- Witness of C18: `num_iterations = 10`, the first iteration returns 384 and
the extra iteration returns 0, so the run ends successful with 384 unsatisfied
checks. -/
theorem success_with_unsatisfied_witness :
    2 ≤ (toyConfig 10 Scheduling.LAYERED).num_iterations ∧
      pchkAt toyEnv (toyConfig 10 Scheduling.LAYERED) [384, -2] freshDecoder 1 = 384 ∧
      pchkAt toyEnv (toyConfig 10 Scheduling.LAYERED) [384, -2] freshDecoder 2 = 0 ∧
      ∃ r, Run toyEnv (toyConfig 10 Scheduling.LAYERED) [384, -2] 11 freshDecoder = some r ∧
        r.2.decoding_successful = true ∧ 0 < r.2.num_unsatisfied_parity_checks ∧
        r.2.num_unsatisfied_parity_checks =
          checkNodes toyEnv (toyConfig 10 Scheduling.LAYERED) [384, -2] freshDecoder -
            pchkAt toyEnv (toyConfig 10 Scheduling.LAYERED) [384, -2] freshDecoder (1 + 1) :=
  ⟨by decide, by decide, by decide,
   success_with_unsatisfied toyEnv (toyConfig 10 Scheduling.LAYERED) [384, -2] freshDecoder 11 1
     (by decide) (by decide) (by decide) (by decide) (by decide)
     (fun j h1 h2 => absurd h2 (by omega)) (by decide) (by decide)⟩

/-! ## The unsupported selector, as the code handles it -/

/-- C19 (behaviour on an unsupported selector).  For `num_iterations ≥ 1`, a
selector other than `LAYERED` and `TWO_PHASE`, and `num_check_nodes_ = 384`
(`Init` runs, or an earlier `Init` has set it): every iteration uses a count of
0, `Run` performs exactly `num_iterations` iterations, writes
`decoding_successful = false`, `iterations_performed = num_iterations` and
`unsatisfied_parity_checks = 384`, stores the snapshot of iteration `j` in
every row `j < num_iterations`, and returns 0. -/
theorem unsupported_run {T : Type} (E : Env T) (cfg : Config) (inp : List T) (d : Decoder T)
    (fuel code : Nat) (hsch : cfg.scheduling = Scheduling.UNSUPPORTED code)
    (hinit : d.config_modified = true ∨ d.share.num_check_nodes_ = 384)
    (hn1 : 1 ≤ cfg.num_iterations) (hn : cfg.num_iterations < 4294967296)
    (hfuel : cfg.num_iterations < fuel) :
    ∃ r, Run E cfg inp fuel d = some r ∧ r.1 = Except.ok 0 ∧
      (∀ i, 1 ≤ i → pchkAt E cfg inp d i = 0) ∧
      r.2.iterations_performed = cfg.num_iterations ∧
      r.2.decoding_successful = false ∧
      r.2.num_unsatisfied_parity_checks = 384 ∧
      (∀ j, j < cfg.num_iterations →
        r.2.output_bits j = snapBits E cfg inp d j ∧
        r.2.output_bits_llr_app j = snapLlr E cfg inp d j) := by
  have hnc := checkNodes_eq E cfg inp d hinit
  have hzero : ∀ i, 1 ≤ i → pchkAt E cfg inp d i = 0 := by
    intro i h1
    obtain ⟨j, rfl⟩ : ∃ j, i = j + 1 := ⟨i - 1, by omega⟩
    unfold pchkAt
    rw [iterState_succ, loopBody_pchk]
    exact (schedule_unsupported E cfg _ _ code hsch).1
  have hnever : ∀ j, 1 ≤ j → j ≤ max 1 cfg.num_iterations →
      pchkAt E cfg inp d j ≠ checkNodes E cfg inp d := by
    intro j h1 _
    rw [hzero j h1, hnc]
    decide
  have hs := stopsAt_of_never E cfg inp d hn hnever
  have hk : max 1 cfg.num_iterations - 1 + 1 = cfg.num_iterations := by omega
  have hrun := Run_of_stopsAt E cfg inp d _ fuel hn hfuel (by omega) hs
  rw [hk] at hrun
  refine ⟨(Except.ok 0, finalDecoder E cfg inp d cfg.num_iterations), hrun, rfl, hzero,
    ?_, ?_, ?_, ?_⟩
  · exact finalDecoder_iterations E cfg inp d _ hn
  · dsimp only
    rw [finalDecoder_success, iterState_success, ← Bool.not_eq_true, iterState_next_iff]
    rintro ⟨l, hl1, hl2, hl3⟩
    exact hnever l hl1 (by omega) hl3
  · dsimp only
    rw [finalDecoder_unsat, hnc, hzero _ hn1]
    rfl
  · intro j hj
    exact finalDecoder_rows_executed E cfg inp d cfg.num_iterations j (by omega) hj

/-- Witness of C19: the selector `UNSUPPORTED 7` and three rows. -/
theorem unsupported_run_witness :
    ∃ r, Run toyEnv (toyConfig 3 (Scheduling.UNSUPPORTED 7)) [384, -2] 4 freshDecoder = some r ∧
      r.1 = Except.ok 0 ∧
      (∀ i, 1 ≤ i →
        pchkAt toyEnv (toyConfig 3 (Scheduling.UNSUPPORTED 7)) [384, -2] freshDecoder i = 0) ∧
      r.2.iterations_performed = (toyConfig 3 (Scheduling.UNSUPPORTED 7)).num_iterations ∧
      r.2.decoding_successful = false ∧
      r.2.num_unsatisfied_parity_checks = 384 ∧
      (∀ j, j < (toyConfig 3 (Scheduling.UNSUPPORTED 7)).num_iterations →
        r.2.output_bits j =
          snapBits toyEnv (toyConfig 3 (Scheduling.UNSUPPORTED 7)) [384, -2] freshDecoder j ∧
        r.2.output_bits_llr_app j =
          snapLlr toyEnv (toyConfig 3 (Scheduling.UNSUPPORTED 7)) [384, -2] freshDecoder j) :=
  unsupported_run toyEnv (toyConfig 3 (Scheduling.UNSUPPORTED 7)) [384, -2] freshDecoder 4 7
    rfl (Or.inl rfl) (by decide) (by decide) (by decide)

end LDPC
